import Mathlib

set_option maxHeartbeats 2000000
set_option maxRecDepth 4000

/-!
Shallow embedding of the cube-game core (facelet engine, scramble generator,
heuristic solver) together with theorems settling the frozen claims.
The definitions mirror `cube-state.js`, the solver file and the scramble
generator file of the repository.
-/

/-- Sticker colors; the JS code stores them as the strings
white, yellow, red, orange, blue, green. -/
inductive Color where
  | white
  | yellow
  | red
  | orange
  | blue
  | green
deriving DecidableEq

/-- The six cube faces U, D, R, L, F, B. -/
inductive Face where
  | U
  | D
  | R
  | L
  | F
  | B
deriving DecidableEq

/-- One face of the cube: a JS array of 9 colors, row-major, index 4 is the
center.  All arrays reachable through the engine have length exactly 9, so the
embedding fixes the length. -/
structure FaceArr where
  s0 : Color
  s1 : Color
  s2 : Color
  s3 : Color
  s4 : Color
  s5 : Color
  s6 : Color
  s7 : Color
  s8 : Color
deriving DecidableEq

/-- Array read `a[i]`; every read performed by the source uses an index 0..8. -/
def FaceArr.get (a : FaceArr) (i : Nat) : Color :=
  match i with
  | 0 => a.s0
  | 1 => a.s1
  | 2 => a.s2
  | 3 => a.s3
  | 4 => a.s4
  | 5 => a.s5
  | 6 => a.s6
  | 7 => a.s7
  | _ => a.s8

/-- Array write `a[i] = c`; every write performed by the source uses an index
0..8. -/
def FaceArr.set (a : FaceArr) (i : Nat) (c : Color) : FaceArr :=
  match i with
  | 0 => { a with s0 := c }
  | 1 => { a with s1 := c }
  | 2 => { a with s2 := c }
  | 3 => { a with s3 := c }
  | 4 => { a with s4 := c }
  | 5 => { a with s5 := c }
  | 6 => { a with s6 := c }
  | 7 => { a with s7 := c }
  | _ => { a with s8 := c }

/-- A face array holding one single color (`Array(9).fill(color)`). -/
def fillFace (c : Color) : FaceArr :=
  ⟨c, c, c, c, c, c, c, c, c⟩

/-- The `this.state` object of `CubeState`: one array of 9 colors per face. -/
structure Faces where
  fU : FaceArr
  fD : FaceArr
  fR : FaceArr
  fL : FaceArr
  fF : FaceArr
  fB : FaceArr
deriving DecidableEq

/-- Read `state[face]`. -/
def Faces.get (st : Faces) : Face → FaceArr
  | Face.U => st.fU
  | Face.D => st.fD
  | Face.R => st.fR
  | Face.L => st.fL
  | Face.F => st.fF
  | Face.B => st.fB

/-- Replace `state[face]` wholesale. -/
def Faces.set (st : Faces) (f : Face) (a : FaceArr) : Faces :=
  match f with
  | Face.U => { st with fU := a }
  | Face.D => { st with fD := a }
  | Face.R => { st with fR := a }
  | Face.L => { st with fL := a }
  | Face.F => { st with fF := a }
  | Face.B => { st with fB := a }

/-- Write one sticker: `state[face][i] = c`. -/
def setSticker (st : Faces) (f : Face) (i : Nat) (c : Color) : Faces :=
  st.set f ((st.get f).set i c)

/-- The apostrophe character, used as the counter-clockwise move suffix. -/
def primeChar : Char := Char.ofNat 39

/-- The apostrophe as a one-character string. -/
def primeStr : String := String.singleton primeChar

/-- Result of `parseMove`: the `{face, clockwise, double}` record. -/
structure MoveData where
  face : Face
  clockwise : Bool
  double : Bool
deriving DecidableEq

/-- Face letter to `Face` (uppercase only, as after `toUpperCase`). -/
def charToFace (c : Char) : Option Face :=
  if c = 'R' then some Face.R
  else if c = 'L' then some Face.L
  else if c = 'U' then some Face.U
  else if c = 'D' then some Face.D
  else if c = 'F' then some Face.F
  else if c = 'B' then some Face.B
  else none

/-- Character-list version of `move.trim().toUpperCase()`.  The tokens the
program handles are ASCII, so per-character uppercasing matches JS. -/
def cleanChars (cs : List Char) : List Char :=
  ((((cs.dropWhile (fun c => c.isWhitespace)).reverse).dropWhile
      (fun c => c.isWhitespace)).reverse).map Char.toUpper

/-- Mirrors `parseMove`: trim and uppercase, then match
the pattern face-letter followed by an optional apostrophe or 2;
`clockwise` is true unless the modifier is the apostrophe, `double` is true
exactly for the modifier 2. -/
def parseMove (move : String) : Option MoveData :=
  match cleanChars move.toList with
  | [c] =>
    match charToFace c with
    | some f => some ⟨f, true, false⟩
    | none => none
  | [c, m] =>
    match charToFace c with
    | some f =>
      if m = primeChar then some ⟨f, false, false⟩
      else if m = '2' then some ⟨f, true, true⟩
      else none
    | none => none
  | _ => none

/-- Face to its one-letter string. -/
def faceStr : Face → String
  | Face.U => "U"
  | Face.D => "D"
  | Face.R => "R"
  | Face.L => "L"
  | Face.F => "F"
  | Face.B => "B"

/-- Mirrors `rotateFaceArray`: the in-place index maps applied to a temp copy,
clockwise `0:=6, 1:=3, 2:=0, 3:=7, 4:=4, 5:=1, 6:=8, 7:=5, 8:=2` and the
counter-clockwise variant. -/
def rotateFaceArray (a : FaceArr) (clockwise : Bool) : FaceArr :=
  if clockwise then
    ⟨a.s6, a.s3, a.s0, a.s7, a.s4, a.s1, a.s8, a.s5, a.s2⟩
  else
    ⟨a.s2, a.s5, a.s8, a.s1, a.s4, a.s7, a.s0, a.s3, a.s6⟩

/-- The per-face neighbor-strip cycle tables of `rotateAdjacentEdges`,
copied verbatim from the source (clockwise and counter-clockwise lists). -/
def rotations (face : Face) (clockwise : Bool) : List (Face × List Nat) :=
  match face, clockwise with
  | Face.R, true =>
    [(Face.U, [2, 5, 8]), (Face.F, [2, 5, 8]), (Face.D, [2, 5, 8]), (Face.B, [6, 3, 0])]
  | Face.R, false =>
    [(Face.U, [2, 5, 8]), (Face.B, [6, 3, 0]), (Face.D, [2, 5, 8]), (Face.F, [2, 5, 8])]
  | Face.L, true =>
    [(Face.U, [0, 3, 6]), (Face.B, [8, 5, 2]), (Face.D, [0, 3, 6]), (Face.F, [0, 3, 6])]
  | Face.L, false =>
    [(Face.U, [0, 3, 6]), (Face.F, [0, 3, 6]), (Face.D, [0, 3, 6]), (Face.B, [8, 5, 2])]
  | Face.U, true =>
    [(Face.B, [0, 1, 2]), (Face.R, [0, 1, 2]), (Face.F, [0, 1, 2]), (Face.L, [0, 1, 2])]
  | Face.U, false =>
    [(Face.B, [0, 1, 2]), (Face.L, [0, 1, 2]), (Face.F, [0, 1, 2]), (Face.R, [0, 1, 2])]
  | Face.D, true =>
    [(Face.F, [6, 7, 8]), (Face.R, [6, 7, 8]), (Face.B, [6, 7, 8]), (Face.L, [6, 7, 8])]
  | Face.D, false =>
    [(Face.F, [6, 7, 8]), (Face.L, [6, 7, 8]), (Face.B, [6, 7, 8]), (Face.R, [6, 7, 8])]
  | Face.F, true =>
    [(Face.U, [6, 7, 8]), (Face.R, [0, 3, 6]), (Face.D, [2, 1, 0]), (Face.L, [8, 5, 2])]
  | Face.F, false =>
    [(Face.U, [6, 7, 8]), (Face.L, [8, 5, 2]), (Face.D, [2, 1, 0]), (Face.R, [0, 3, 6])]
  | Face.B, true =>
    [(Face.U, [2, 1, 0]), (Face.L, [0, 3, 6]), (Face.D, [6, 7, 8]), (Face.R, [8, 5, 2])]
  | Face.B, false =>
    [(Face.U, [2, 1, 0]), (Face.R, [8, 5, 2]), (Face.D, [6, 7, 8]), (Face.L, [0, 3, 6])]

/-- Read the 3 stickers of a strip (the temp save of the first cycle group,
and the source of each copy step). -/
def readStrip (st : Faces) (strip : Face × List Nat) : List Color :=
  strip.2.map (fun i => (st.get strip.1).get i)

/-- One copy step of `rotateAdjacentEdges`: for each j,
`state[toFace][toIndices[j]] = state[fromFace][fromIndices[j]]`, performed
sequentially on the evolving state exactly as in the source. -/
def moveStripGo (st : Faces) (tf ff : Face) : List Nat → List Nat → Faces
  | ti :: ts, fi :: fs2 =>
    moveStripGo (setSticker st tf ti ((st.get ff).get fi)) tf ff ts fs2
  | _, _ => st

/-- Copy the `from` strip onto the `to` strip. -/
def moveStrip (st : Faces) (toS fromS : Face × List Nat) : Faces :=
  moveStripGo st toS.1 fromS.1 toS.2 fromS.2

/-- Write the saved temp colors into a strip (the final step of
`rotateAdjacentEdges`). -/
def writeStripGo (st : Faces) (f : Face) : List Nat → List Color → Faces
  | i :: is2, c :: cs => writeStripGo (setSticker st f i c) f is2 cs
  | _, _ => st

/-- Write a whole strip from a saved color list. -/
def writeStrip (st : Faces) (strip : Face × List Nat) (cs : List Color) : Faces :=
  writeStripGo st strip.1 strip.2 cs

/-- The cycle walk of `rotateAdjacentEdges`: group i receives group i+1's
content for i below the last, and the last group receives the temp save. -/
def shiftCycle (st : Faces) (cycle : List (Face × List Nat)) (temp : List Color) : Faces :=
  match cycle with
  | [] => st
  | [last] => writeStrip st last temp
  | c1 :: c2 :: rest => shiftCycle (moveStrip st c1 c2) (c2 :: rest) temp

/-- Mirrors `rotateAdjacentEdges`: pick the cycle for the face and direction,
save the first group, walk the cycle, write the save into the last group. -/
def rotateAdjacentEdges (st : Faces) (face : Face) (clockwise : Bool) : Faces :=
  let cycle := rotations face clockwise
  match cycle with
  | [] => st
  | first :: _ => shiftCycle st cycle (readStrip st first)

/-- Mirrors `rotateFace`: rotate the face array itself, then the adjacent
strips. -/
def rotateFace (st : Faces) (face : Face) (clockwise : Bool) : Faces :=
  rotateAdjacentEdges (st.set face (rotateFaceArray (st.get face) clockwise)) face clockwise

/-- Each face uniform test of `checkCompleted`:
`colors.every(color => color === colors[0])`. -/
def faceUniform (a : FaceArr) : Bool :=
  (a.s0 == a.s0) && (a.s1 == a.s0) && (a.s2 == a.s0) && (a.s3 == a.s0) &&
    (a.s4 == a.s0) && (a.s5 == a.s0) && (a.s6 == a.s0) && (a.s7 == a.s0) &&
    (a.s8 == a.s0)

/-- Mirrors `checkCompleted` as a pure function of the sticker state: every
face must be uniform (each checked against its own first sticker). -/
def checkCompleted (st : Faces) : Bool :=
  faceUniform st.fU && faceUniform st.fD && faceUniform st.fR &&
    faceUniform st.fL && faceUniform st.fF && faceUniform st.fB

/-- The `CubeState` object: sticker state, move history, cached completion
flag. -/
structure CubeState where
  faces : Faces
  moveHistory : List String
  isCompleted : Bool
deriving DecidableEq

/-- The canonical solved assignment of `reset`. -/
def solvedFaces : Faces :=
  ⟨fillFace Color.white, fillFace Color.yellow, fillFace Color.red,
    fillFace Color.orange, fillFace Color.blue, fillFace Color.green⟩

/-- Mirrors `reset`: solved colors, empty history, completed flag true. -/
def resetState : CubeState :=
  ⟨solvedFaces, [], true⟩

/-- Mirrors `executeMove`: parse (failure leaves the state untouched and
returns false); apply the turn once or, for a half turn, twice; push the raw
token onto the history; recompute the completion flag. -/
def executeMove (st : CubeState) (move : String) : CubeState × Bool :=
  match parseMove move with
  | none => (st, false)
  | some md =>
    let fs :=
      if md.double then
        rotateFace (rotateFace st.faces md.face md.clockwise) md.face md.clockwise
      else
        rotateFace st.faces md.face md.clockwise
    (⟨fs, st.moveHistory ++ [move], checkCompleted fs⟩, true)

/-- Mirrors `getReverseMove`: half turns are self-inverse, clockwise and
counter-clockwise quarter turns swap; unparseable input yields the empty
string. -/
def getReverseMove (move : String) : String :=
  match parseMove move with
  | none => ""
  | some md =>
    if md.double then faceStr md.face ++ "2"
    else if md.clockwise then faceStr md.face ++ primeStr
    else faceStr md.face

/-- Mirrors `undoLastMove`: pop the last history entry, replay its reverse
with the history temporarily emptied, restore the popped history, recompute
completion. -/
def undoLastMove (st : CubeState) : CubeState × Bool :=
  match st.moveHistory.getLast? with
  | none => (st, false)
  | some lastMove =>
    let tempHistory := st.moveHistory.dropLast
    let st1 := (executeMove ⟨st.faces, [], st.isCompleted⟩ (getReverseMove lastMove)).1
    (⟨st1.faces, tempHistory, checkCompleted st1.faces⟩, true)

/-- Mirrors `getStateCopy`: a value snapshot of the six face arrays. -/
def getStateCopy (st : CubeState) : Faces :=
  st.faces

/-- Mirrors `setState`: install a snapshot (value copy) and recompute the
completion flag; the history is untouched. -/
def setState (st : CubeState) (snap : Faces) : CubeState :=
  ⟨snap, st.moveHistory, checkCompleted snap⟩

/-- Apply a list of tokens through `executeMove`, discarding the result
flags. -/
def applyMoves (st : CubeState) (moves : List String) : CubeState :=
  moves.foldl (fun s m => (executeMove s m).1) st

/-- An engine operation, for stating reachability invariants. -/
inductive Op where
  | exec (move : String)
  | undo
  | reset

/-- Run one engine operation. -/
def applyOp (st : CubeState) : Op → CubeState
  | Op.exec m => (executeMove st m).1
  | Op.undo => (undoLastMove st).1
  | Op.reset => resetState

/-- Number of occurrences of a color among the 9 stickers of one face. -/
def countFace (a : FaceArr) (c : Color) : Nat :=
  (if a.s0 = c then 1 else 0) + (if a.s1 = c then 1 else 0) + (if a.s2 = c then 1 else 0) +
    (if a.s3 = c then 1 else 0) + (if a.s4 = c then 1 else 0) + (if a.s5 = c then 1 else 0) +
    (if a.s6 = c then 1 else 0) + (if a.s7 = c then 1 else 0) + (if a.s8 = c then 1 else 0)

/-- Number of occurrences of a color among all 54 stickers. -/
def countColor (st : Faces) (c : Color) : Nat :=
  countFace st.fU c + countFace st.fD c + countFace st.fR c + countFace st.fL c +
    countFace st.fF c + countFace st.fB c

/-- Strip i of a face's clockwise cycle table (used to state the C1 claim). -/
def stripAt (f : Face) (i : Nat) : Face × List Nat :=
  (rotations f true).getD i (Face.U, [])

/-- JS `move.charAt(0)` compared as a character (`null` for the empty
string). -/
def headChar (m : String) : Option Char :=
  m.toList.head?

/-- JS `move.charAt(0)` kept as a string, as `optimizeSolution` concatenates
it. -/
def charAt0Str (m : String) : String :=
  match m.toList with
  | [] => ""
  | c :: _ => String.singleton c

/-- JS `!move.includes(APOSTROPHE)`: the token counts as clockwise unless it
carries the apostrophe. -/
def isCwTok (m : String) : Bool :=
  !(m.toList.contains primeChar)

/-- The run-extension test of `optimizeSolution`: same base face and same
direction flag as the run opener. -/
def tokenMatches (f : Option Char) (cw : Bool) (m : String) : Bool :=
  (headChar m == f) && (isCwTok m == cw)

/-- Length of the maximal matching prefix (the `while` count of
`optimizeSolution`, minus the opening move itself). -/
def runLen (f : Option Char) (cw : Bool) : List String → Nat
  | [] => 0
  | m :: rest => if tokenMatches f cw m then runLen f cw rest + 1 else 0

/-- Mirrors `optimizeSolution`: walk the list, count each maximal run of
same-face same-direction tokens, and emit per `count % 4`: nothing, the
opening token itself, the half turn, or the opposite quarter turn. -/
def optimizeSolution : List String → List String
  | [] => []
  | m :: rest =>
    let baseFace := charAt0Str m
    let cw := isCwTok m
    let count := 1 + runLen (headChar m) cw rest
    let emitted :=
      if count % 4 = 1 then [m]
      else if count % 4 = 2 then [baseFace ++ "2"]
      else if count % 4 = 3 then [baseFace ++ (if cw then primeStr else "")]
      else []
    emitted ++ optimizeSolution (rest.drop (count - 1))
termination_by sol => sol.length
decreasing_by
  simp only [List.length_drop, List.length_cons]
  omega

/-- Spec-side description of what one merged run emits, per run length k
mod 4: drop, single quarter turn, half turn, opposite quarter turn. -/
def emitQuarter (f : Char) (cw : Bool) (k : Nat) : List String :=
  if k % 4 = 1 then [String.singleton f ++ (if cw then "" else primeStr)]
  else if k % 4 = 2 then [String.singleton f ++ "2"]
  else if k % 4 = 3 then [String.singleton f ++ (if cw then primeStr else "")]
  else []

/-- The list that follows a run does not extend it (empty, or opening token
mismatching). -/
def runBreak (f : Option Char) (cw : Bool) : List String → Prop
  | [] => True
  | m :: _ => tokenMatches f cw m = false

/-- Solver: the white-cross template (`whiteCross.F-edge-wrong`). -/
def wcTemplate : List String :=
  ["F", "U", "R", "U" ++ primeStr, "R" ++ primeStr, "F" ++ primeStr]

/-- Solver: the white-corner right-hand template. -/
def cornersTemplate : List String :=
  ["R", "U", "R" ++ primeStr, "U" ++ primeStr]

/-- Solver: the second-layer right template. -/
def secondTemplate : List String :=
  ["U", "R", "U" ++ primeStr, "R" ++ primeStr, "U" ++ primeStr, "F" ++ primeStr, "U", "F"]

/-- Solver: the yellow-cross dot template. -/
def yellowCrossTemplate : List String :=
  ["F", "R", "U", "R" ++ primeStr, "U" ++ primeStr, "F" ++ primeStr]

/-- Solver: the sune template. -/
def suneTemplate : List String :=
  ["R", "U", "R" ++ primeStr, "U", "R", "U2", "R" ++ primeStr]

/-- Solver: the clockwise corner-permutation template. -/
def cornerPLLTemplate : List String :=
  ["R" ++ primeStr, "F", "R" ++ primeStr, "B2", "R", "F" ++ primeStr, "R" ++ primeStr, "B2", "R2"]

/-- Solver: the adjacent edge-permutation template. -/
def edgePLLTemplate : List String :=
  ["R", "U", "R" ++ primeStr, "F" ++ primeStr, "R", "U", "R" ++ primeStr, "U" ++ primeStr,
    "R" ++ primeStr, "F", "R2", "U" ++ primeStr, "R" ++ primeStr]

/-- The U-face adjustment choices of the white-cross stage. -/
def uMoves : List String :=
  ["U", "U" ++ primeStr, "U2"]

/-- Whether all nine stickers of a face equal the given color
(`every(color => color === target)`). -/
def faceAllIs (a : FaceArr) (c : Color) : Bool :=
  (a.s0 == c) && (a.s1 == c) && (a.s2 == c) && (a.s3 == c) && (a.s4 == c) &&
    (a.s5 == c) && (a.s6 == c) && (a.s7 == c) && (a.s8 == c)

/-- Mirrors `isWhiteCrossSolved`: D-face positions 1,3,5,7 are yellow. -/
def isWhiteCrossSolved (st : CubeState) : Bool :=
  (st.faces.fD.s1 == Color.yellow) && (st.faces.fD.s3 == Color.yellow) &&
    (st.faces.fD.s5 == Color.yellow) && (st.faces.fD.s7 == Color.yellow)

/-- Mirrors `areWhiteCornersSolved`: the whole D face is yellow. -/
def areWhiteCornersSolved (st : CubeState) : Bool :=
  faceAllIs st.faces.fD Color.yellow

/-- Middle-row uniformity against the center sticker
(`middleRow.every(color => color === faceArray[4])`). -/
def middleRowOK (a : FaceArr) : Bool :=
  (a.s3 == a.s4) && (a.s4 == a.s4) && (a.s5 == a.s4)

/-- Mirrors `isSecondLayerSolved`: the middle rows of F, R, B, L match their
centers. -/
def isSecondLayerSolved (st : CubeState) : Bool :=
  middleRowOK st.faces.fF && middleRowOK st.faces.fR && middleRowOK st.faces.fB &&
    middleRowOK st.faces.fL

/-- Mirrors `isYellowCrossSolved`: U-face positions 1,3,5,7 are white. -/
def isYellowCrossSolved (st : CubeState) : Bool :=
  (st.faces.fU.s1 == Color.white) && (st.faces.fU.s3 == Color.white) &&
    (st.faces.fU.s5 == Color.white) && (st.faces.fU.s7 == Color.white)

/-- Mirrors `areYellowCornersOriented`: the whole U face is white. -/
def areYellowCornersOriented (st : CubeState) : Bool :=
  faceAllIs st.faces.fU Color.white

/-- Mirrors `areLastLayerCornersSolved` (delegates to the second-layer
check). -/
def areLastLayerCornersSolved (st : CubeState) : Bool :=
  isSecondLayerSolved st

/-- Mirrors `areLastLayerEdgesSolved` (delegates to `checkCompleted`). -/
def areLastLayerEdgesSolved (st : CubeState) : Bool :=
  checkCompleted st.faces

/-- The shared shape of every solver stage: bounded attempts, stop early when
the predicate holds, otherwise apply the fixed template then one U-face
adjustment, accumulating every applied token. -/
def stageLoop (pred : CubeState → Bool) (template : List String) (adjust : Nat → String) :
    Nat → Nat → CubeState → CubeState × List String
  | 0, _, st => (st, [])
  | fuel + 1, attempt, st =>
    if pred st then (st, [])
    else
      let st1 := applyMoves st template
      let st2 := (executeMove st1 (adjust attempt)).1
      let res := stageLoop pred template adjust fuel (attempt + 1) st2
      (res.1, template ++ [adjust attempt] ++ res.2)

/-- Mirrors `solveWhiteCross` (budget 20; the adjustment is drawn from
`uMoves` by the random stream). -/
def solveWhiteCross (r : Nat → Nat) (st : CubeState) : CubeState × List String :=
  stageLoop isWhiteCrossSolved wcTemplate (fun a => uMoves.getD (r a % 3) "U") 20 0 st

/-- Mirrors `solveWhiteCorners` (budget 30, fixed U adjustment). -/
def solveWhiteCorners (st : CubeState) : CubeState × List String :=
  stageLoop areWhiteCornersSolved cornersTemplate (fun _ => "U") 30 0 st

/-- Mirrors `solveSecondLayer` (budget 25). -/
def solveSecondLayer (st : CubeState) : CubeState × List String :=
  stageLoop isSecondLayerSolved secondTemplate (fun _ => "U") 25 0 st

/-- Mirrors `solveYellowCross` (budget 15). -/
def solveYellowCross (st : CubeState) : CubeState × List String :=
  stageLoop isYellowCrossSolved yellowCrossTemplate (fun _ => "U") 15 0 st

/-- Mirrors `orientYellowCorners` (budget 20). -/
def orientYellowCorners (st : CubeState) : CubeState × List String :=
  stageLoop areYellowCornersOriented suneTemplate (fun _ => "U") 20 0 st

/-- Mirrors `permuteLastLayer`: corner permutation then edge permutation,
each with budget 10. -/
def permuteLastLayer (st : CubeState) : CubeState × List String :=
  let rc := stageLoop areLastLayerCornersSolved cornerPLLTemplate (fun _ => "U") 10 0 st
  let re := stageLoop areLastLayerEdgesSolved edgePLLTemplate (fun _ => "U") 10 0 rc.1
  (re.1, rc.2 ++ re.2)

/-- Mirrors `createWorkingState`: a fresh `CubeState` receives a value copy of
the sticker state (recomputing completion, as `setState` does) and a value
copy of the move history. -/
def createWorkingState (cs : CubeState) : CubeState :=
  ⟨cs.faces, cs.moveHistory, checkCompleted cs.faces⟩

/-- Mirrors `solve`: run the six stages on the working copy and post-process
with `optimizeSolution`.  Nothing in the embedded pipeline can throw, so the
source's catch-and-fallback branch is unreachable here. -/
def solve (cs : CubeState) (r : Nat → Nat) : List String :=
  let w := createWorkingState cs
  let r1 := solveWhiteCross r w
  let r2 := solveWhiteCorners r1.1
  let r3 := solveSecondLayer r2.1
  let r4 := solveYellowCross r3.1
  let r5 := orientYellowCorners r4.1
  let r6 := permuteLastLayer r5.1
  optimizeSolution (r1.2 ++ r2.2 ++ r3.2 ++ r4.2 ++ r5.2 ++ r6.2)

/-- The base face tokens of the scramble generator. -/
def baseMoves : List String :=
  ["R", "L", "U", "D", "F", "B"]

/-- The three move modifiers (none, apostrophe, 2). -/
def modifiers : List String :=
  ["", primeStr, "2"]

/-- The opposite-face table (`oppositeFaces`); unknown characters have no
entry. -/
def oppLookup (c : Char) : Option Char :=
  if c = 'R' then some 'L'
  else if c = 'L' then some 'R'
  else if c = 'U' then some 'D'
  else if c = 'D' then some 'U'
  else if c = 'F' then some 'B'
  else if c = 'B' then some 'F'
  else none

/-- Mirrors `extractFace`: the first character, or null for the empty
string. -/
def extractFace (m : String) : Option Char :=
  m.toList.head?

/-- Mirrors `isValidMove`: reject a repeat of the previous face, and reject
the opposite-sandwich (current face opposite to the previous AND equal to the
one before).  In JS the opposite lookup of a miss is `undefined`, which never
compares equal to `null`; both call sites pass a format-valid current move,
whose lookup always hits, so folding both misses into `none` never changes a
comparison the program performs. -/
def isValidMove (move : String) (lastMove lastLastMove : Option Char) : Bool :=
  let currentFace := extractFace move
  if currentFace == lastMove then false
  else if ((currentFace.bind oppLookup) == lastMove) && (currentFace == lastLastMove) then false
  else true

/-- One random candidate: a face drawn from the 6 base moves and a modifier
(easy: apostrophe or nothing with equal chance; otherwise one of the 3
modifiers).  The process-wide random source is modeled as the explicit draw
stream r, consumed two draws per candidate. -/
def pickAttempt (difficulty : String) (r : Nat → Nat) (k : Nat) : String :=
  let face := baseMoves.getD (r k % 6) "R"
  let modifier :=
    if difficulty == "easy" then (if r (k + 1) % 2 == 0 then "" else primeStr)
    else modifiers.getD (r (k + 1) % 3) ""
  face ++ modifier

/-- The do-while of `generateScramble`: resample while attempts stay below
100 and the candidate is invalid; the tuple carries the final candidate, the
attempt count and the next draw index.  The fuel always suffices for the 100
admissible attempts. -/
def sampleLoop (difficulty : String) (r : Nat → Nat) (lastMove lastLastMove : Option Char) :
    Nat → Nat → Nat → String × Nat × Nat
  | 0, attempts, k => ("", attempts, k)
  | fuel + 1, attempts, k =>
    let move := pickAttempt difficulty r k
    let attempts2 := attempts + 1
    if attempts2 < 100 && !(isValidMove move lastMove lastLastMove) then
      sampleLoop difficulty r lastMove lastLastMove fuel attempts2 (k + 2)
    else
      (move, attempts2, k + 2)

/-- One position of `generateScramble`: none when the attempt budget was
exhausted (the JS `break`), otherwise the accepted move and next draw
index.  A candidate that becomes valid only on the 100th attempt is still
discarded, exactly as in the source. -/
def pickMove (difficulty : String) (r : Nat → Nat) (lastMove lastLastMove : Option Char)
    (k : Nat) : Option (String × Nat) :=
  let res := sampleLoop difficulty r lastMove lastLastMove 100 0 k
  if res.2.1 ≥ 100 then none else some (res.1, res.2.2)

/-- The main loop of `generateScramble`: build the sequence move by move,
tracking the faces of the last two accepted moves; stop early on budget
exhaustion. -/
def genLoop (difficulty : String) (r : Nat → Nat) :
    Nat → Nat → Option Char → Option Char → List String
  | 0, _, _, _ => []
  | n + 1, k, lastMove, lastLastMove =>
    match pickMove difficulty r lastMove lastLastMove k with
    | none => []
    | some (move, k2) => move :: genLoop difficulty r n k2 (extractFace move) lastMove

/-- The per-difficulty default length (easy 12, medium 20, hard 25, else the
default 20). -/
def defaultFor (difficulty : String) : Nat :=
  if difficulty == "easy" then 12
  else if difficulty == "medium" then 20
  else if difficulty == "hard" then 25
  else 20

/-- Mirrors `generateScramble`; a requested length of null or 0 is falsy in
JS and falls back to the difficulty default. -/
def generateScramble (length : Option Nat) (difficulty : String) (r : Nat → Nat) : List String :=
  let len :=
    match length with
    | some l => if l = 0 then defaultFor difficulty else l
    | none => defaultFor difficulty
  genLoop difficulty r len 0 none none

/-- Mirrors `isValidMoveFormat`: one face letter with an optional apostrophe
or 2 (no trimming, no uppercasing). -/
def faceLetter (c : Char) : Bool :=
  (c == 'R') || (c == 'L') || (c == 'U') || (c == 'D') || (c == 'F') || (c == 'B')

/-- The notation-format regex test of `isValidMoveFormat`. -/
def isValidMoveFormat (move : String) : Bool :=
  match move.toList with
  | [c] => faceLetter c
  | [c, m] => faceLetter c && ((m == primeChar) || (m == '2'))
  | _ => false

/-- The format-error message of `validateScramble` (carries only the move
text). -/
def fmtMsg (move : String) : String :=
  "Invalid move format: " ++ move

/-- The sequence-error message of `validateScramble` (carries the 1-based
position and the move text). -/
def seqMsg (i : Nat) (move : String) : String :=
  "Invalid move sequence at position " ++ Nat.repr (i + 1) ++ ": " ++ move

/-- One iteration of the `validateScramble` loop: a format error appends its
message and skips the rule check; otherwise positions after the first are
checked against the two previous faces. -/
def validateStep (s : List String) (errors : List String) (i : Nat) : List String :=
  let move := s.getD i ""
  if !(isValidMoveFormat move) then errors ++ [fmtMsg move]
  else if i > 0 then
    let lastMove := extractFace (s.getD (i - 1) "")
    let lastLastMove := if i > 1 then extractFace (s.getD (i - 2) "") else none
    if !(isValidMove move lastMove lastLastMove) then errors ++ [seqMsg i move]
    else errors
  else errors

/-- Mirrors `validateScramble`: collect the violations in order; the flag is
true exactly when no violation was collected. -/
def validateScramble (s : List String) : Bool × List String :=
  let errors := (List.range s.length).foldl (validateStep s) []
  (errors == [], errors)

/-- Spec-side form of one validation position: at most one message per
index. -/
def stepSpec (s : List String) (i : Nat) : Option String :=
  let move := s.getD i ""
  if !(isValidMoveFormat move) then some (fmtMsg move)
  else if i > 0 then
    let lastMove := extractFace (s.getD (i - 1) "")
    let lastLastMove := if i > 1 then extractFace (s.getD (i - 2) "") else none
    if !(isValidMove move lastMove lastLastMove) then some (seqMsg i move)
    else none
  else none

/-- Spec-side form of the whole violation list: one pass of `stepSpec` over
all positions. -/
def specErrors (s : List String) : List String :=
  (List.range s.length).filterMap (stepSpec s)

/-- No two consecutive tokens share a face. -/
def noRepeat : List String → Prop
  | a :: b :: t => ¬(extractFace b = extractFace a) ∧ noRepeat (b :: t)
  | _ => True

/-- No three consecutive tokens form the pattern face A, opposite of A,
face A. -/
def noSandwich : List String → Prop
  | a :: b :: c2 :: t =>
    ¬(extractFace b = (extractFace a).bind oppLookup ∧ extractFace c2 = extractFace a) ∧
      noSandwich (b :: c2 :: t)
  | _ => True

/-- Every token of the list passed `isValidMove` against the rolling pair of
previous faces (the generator's invariant). -/
def chainOK (lastMove lastLastMove : Option Char) : List String → Prop
  | [] => True
  | m :: t => isValidMove m lastMove lastLastMove = true ∧ chainOK (extractFace m) lastMove t

/-- A heap of JS array objects, for stating the aliasing claims: sticker
arrays and history arrays live at numeric references; `next`/`hnext` are the
allocation frontiers. -/
structure Store where
  mem : Nat → FaceArr
  next : Nat
  hmem : Nat → List String
  hnext : Nat

/-- A `CubeState` object at the reference level: one array reference per
face, a reference to the history array, and the completion flag. -/
structure CubeRef where
  arr : Face → Nat
  hist : Nat
  flag : Bool

/-- Overwrite a sticker array in place. -/
def writeArr (s : Store) (n : Nat) (a : FaceArr) : Store :=
  { s with mem := fun k => if k = n then a else s.mem k }

/-- Allocate a fresh sticker array. -/
def allocArr (s : Store) (a : FaceArr) : Nat × Store :=
  (s.next, ⟨fun k => if k = s.next then a else s.mem k, s.next + 1, s.hmem, s.hnext⟩)

/-- Overwrite a history array in place. -/
def writeHist (s : Store) (n : Nat) (h : List String) : Store :=
  { s with hmem := fun k => if k = n then h else s.hmem k }

/-- Allocate a fresh history array. -/
def allocHist (s : Store) (h : List String) : Nat × Store :=
  (s.hnext, ⟨s.mem, s.next, fun k => if k = s.hnext then h else s.hmem k, s.hnext + 1⟩)

/-- The sticker values a cube object currently sees through its six array
references. -/
def facesOfS (c : CubeRef) (s : Store) : Faces :=
  ⟨s.mem (c.arr Face.U), s.mem (c.arr Face.D), s.mem (c.arr Face.R),
    s.mem (c.arr Face.L), s.mem (c.arr Face.F), s.mem (c.arr Face.B)⟩

/-- Reference-level `reset`, as run by the `CubeState` constructor: six fresh
filled arrays and a fresh empty history array. -/
def resetS (s : Store) : CubeRef × Store :=
  let pU := allocArr s (fillFace Color.white)
  let pD := allocArr pU.2 (fillFace Color.yellow)
  let pR := allocArr pD.2 (fillFace Color.red)
  let pL := allocArr pR.2 (fillFace Color.orange)
  let pF := allocArr pL.2 (fillFace Color.blue)
  let pB := allocArr pF.2 (fillFace Color.green)
  let pH := allocHist pB.2 []
  (⟨fun f =>
      match f with
      | Face.U => pU.1
      | Face.D => pD.1
      | Face.R => pR.1
      | Face.L => pL.1
      | Face.F => pF.1
      | Face.B => pB.1,
    pH.1, true⟩, pH.2)

/-- Write a whole sticker state back into the cube's own six arrays; the
in-place sticker writes of a turn land in exactly these cells. -/
def writeFacesS (c : CubeRef) (s : Store) (fs : Faces) : Store :=
  writeArr (writeArr (writeArr (writeArr (writeArr (writeArr s
    (c.arr Face.U) fs.fU) (c.arr Face.D) fs.fD) (c.arr Face.R) fs.fR)
    (c.arr Face.L) fs.fL) (c.arr Face.F) fs.fF) (c.arr Face.B) fs.fB

/-- Reference-level `executeMove`: the turn mutates the cube's own six
sticker arrays and pushes onto its own history array; references never
change. -/
def executeMoveS (c : CubeRef) (s : Store) (move : String) : (CubeRef × Store) × Bool :=
  match parseMove move with
  | none => ((c, s), false)
  | some md =>
    let fs0 := facesOfS c s
    let fs :=
      if md.double then rotateFace (rotateFace fs0 md.face md.clockwise) md.face md.clockwise
      else rotateFace fs0 md.face md.clockwise
    let s1 := writeFacesS c s fs
    let s2 := writeHist s1 c.hist (s1.hmem c.hist ++ [move])
    ((⟨c.arr, c.hist, checkCompleted fs⟩, s2), true)

/-- Reference-level `getStateCopy`: a value snapshot (the JS copy builds
fresh arrays, so the snapshot shares nothing). -/
def getStateCopyS (c : CubeRef) (s : Store) : Faces :=
  facesOfS c s

/-- Reference-level `getMoveHistory`: a value snapshot of the history. -/
def getMoveHistoryS (c : CubeRef) (s : Store) : List String :=
  s.hmem c.hist

/-- Reference-level `setState`: six fresh arrays receive the snapshot values
(`copy[face] = [...newState[face]]`), and the completion flag is
recomputed. -/
def setStateS (c : CubeRef) (s : Store) (snap : Faces) : CubeRef × Store :=
  let pU := allocArr s snap.fU
  let pD := allocArr pU.2 snap.fD
  let pR := allocArr pD.2 snap.fR
  let pL := allocArr pR.2 snap.fL
  let pF := allocArr pL.2 snap.fF
  let pB := allocArr pF.2 snap.fB
  (⟨fun f =>
      match f with
      | Face.U => pU.1
      | Face.D => pD.1
      | Face.R => pR.1
      | Face.L => pL.1
      | Face.F => pF.1
      | Face.B => pB.1,
    c.hist, checkCompleted snap⟩, pB.2)

/-- Reference-level `createWorkingState`: construct a fresh `CubeState`,
install a value copy of the caller's stickers via `setState`, and give the
working copy a fresh history array holding a value copy of the caller's
history. -/
def createWorkingStateS (cube : CubeRef) (s : Store) : CubeRef × Store :=
  let p0 := resetS s
  let p1 := setStateS p0.1 p0.2 (getStateCopyS cube p0.2)
  let pH := allocHist p1.2 (getMoveHistoryS cube p1.2)
  (⟨p1.1.arr, pH.1, p1.1.flag⟩, pH.2)

/-- Apply a move list at the reference level. -/
def applyMovesS (c : CubeRef) (s : Store) (moves : List String) : CubeRef × Store :=
  moves.foldl (fun p m => (executeMoveS p.1 p.2 m).1) (c, s)

/-- Lift a value-level stage predicate to the reference level (the
predicates read only the sticker state). -/
def predS (pred : CubeState → Bool) (c : CubeRef) (s : Store) : Bool :=
  pred ⟨facesOfS c s, [], c.flag⟩

/-- The reference-level stage loop, same shape as `stageLoop`. -/
def stageLoopS (pred : CubeRef → Store → Bool) (template : List String) (adjust : Nat → String) :
    Nat → Nat → CubeRef → Store → (CubeRef × Store) × List String
  | 0, _, c, s => ((c, s), [])
  | fuel + 1, attempt, c, s =>
    if pred c s then ((c, s), [])
    else
      let p1 := applyMovesS c s template
      let p2 := (executeMoveS p1.1 p1.2 (adjust attempt)).1
      let res := stageLoopS pred template adjust fuel (attempt + 1) p2.1 p2.2
      (res.1, template ++ [adjust attempt] ++ res.2)

/-- Reference-level `solve`: the working copy is created from the caller's
cube, all mutation then happens through the working copy's references. -/
def solveS (cube : CubeRef) (s : Store) (r : Nat → Nat) : (List String × CubeRef) × Store :=
  let p0 := createWorkingStateS cube s
  let q1 := stageLoopS (predS isWhiteCrossSolved) wcTemplate
    (fun a => uMoves.getD (r a % 3) "U") 20 0 p0.1 p0.2
  let q2 := stageLoopS (predS areWhiteCornersSolved) cornersTemplate (fun _ => "U") 30 0 q1.1.1 q1.1.2
  let q3 := stageLoopS (predS isSecondLayerSolved) secondTemplate (fun _ => "U") 25 0 q2.1.1 q2.1.2
  let q4 := stageLoopS (predS isYellowCrossSolved) yellowCrossTemplate (fun _ => "U") 15 0 q3.1.1 q3.1.2
  let q5 := stageLoopS (predS areYellowCornersOriented) suneTemplate (fun _ => "U") 20 0 q4.1.1 q4.1.2
  let q6 := stageLoopS (predS areLastLayerCornersSolved) cornerPLLTemplate (fun _ => "U") 10 0 q5.1.1 q5.1.2
  let q7 := stageLoopS (predS areLastLayerEdgesSolved) edgePLLTemplate (fun _ => "U") 10 0 q6.1.1 q6.1.2
  ((optimizeSolution (q1.2 ++ q2.2 ++ q3.2 ++ q4.2 ++ q5.2 ++ q6.2 ++ q7.2), q7.1.1), q7.1.2)

/-- Well-formed caller: all its references were allocated (they sit below
the allocation frontiers). -/
def WFRef (cube : CubeRef) (s : Store) : Prop :=
  (∀ f : Face, cube.arr f < s.next) ∧ cube.hist < s.hnext

/-- A concrete all-white face array, as an arbitrary heap default. -/
def defaultFaceArr : FaceArr :=
  fillFace Color.white

/-- The empty heap. -/
def emptyStore : Store :=
  ⟨fun _ => defaultFaceArr, 0, fun _ => [], 0⟩

/-!
Theorems.  The helper lemmas come first, the claim theorems afterwards.
-/

theorem rotateFace_cw_ccw (f : Face) (st : Faces) :
    rotateFace (rotateFace st f true) f false = st := by
  cases f <;>
    simp [rotateFace, rotateAdjacentEdges, rotations, shiftCycle, moveStrip, moveStripGo,
      writeStrip, writeStripGo, readStrip, setSticker, Faces.set, Faces.get,
      FaceArr.set, FaceArr.get, rotateFaceArray]

theorem rotateFace_ccw_cw (f : Face) (st : Faces) :
    rotateFace (rotateFace st f false) f true = st := by
  cases f <;>
    simp [rotateFace, rotateAdjacentEdges, rotations, shiftCycle, moveStrip, moveStripGo,
      writeStrip, writeStripGo, readStrip, setSticker, Faces.set, Faces.get,
      FaceArr.set, FaceArr.get, rotateFaceArray]

theorem rotateFace_four (f : Face) (st : Faces) :
    rotateFace (rotateFace (rotateFace (rotateFace st f true) f true) f true) f true = st := by
  cases f <;>
    simp [rotateFace, rotateAdjacentEdges, rotations, shiftCycle, moveStrip, moveStripGo,
      writeStrip, writeStripGo, readStrip, setSticker, Faces.set, Faces.get,
      FaceArr.set, FaceArr.get, rotateFaceArray]

theorem countColor_rotateFace (f : Face) (cl : Bool) (st : Faces) (c : Color) :
    countColor (rotateFace st f cl) c = countColor st c := by
  cases f <;> cases cl <;>
    (simp [rotateFace, rotateAdjacentEdges, rotations, shiftCycle, moveStrip, moveStripGo,
      writeStrip, writeStripGo, readStrip, setSticker, Faces.set, Faces.get,
      FaceArr.set, FaceArr.get, rotateFaceArray, countColor, countFace]
     omega)

theorem parse_faceStr (f : Face) : parseMove (faceStr f) = some ⟨f, true, false⟩ := by
  cases f <;> decide

theorem parse_faceStr_prime (f : Face) :
    parseMove (faceStr f ++ primeStr) = some ⟨f, false, false⟩ := by
  cases f <;> decide

theorem parse_faceStr_two (f : Face) :
    parseMove (faceStr f ++ "2") = some ⟨f, true, true⟩ := by
  cases f <;> decide

/-- Claim C4: a clockwise quarter turn permutes the 9 stickers of the turned
face by the fixed 8-cycle (index 4 fixed; new 0 takes old 6, 1 takes 3,
2 takes 0, 3 takes 7, 5 takes 1, 6 takes 8, 7 takes 5, 8 takes 2), and the
counter-clockwise face rotation is the inverse of that map. -/
theorem C4_face_cycle : ∀ a : FaceArr,
    ((rotateFaceArray a true).s0 = a.s6 ∧ (rotateFaceArray a true).s1 = a.s3 ∧
      (rotateFaceArray a true).s2 = a.s0 ∧ (rotateFaceArray a true).s3 = a.s7 ∧
      (rotateFaceArray a true).s4 = a.s4 ∧ (rotateFaceArray a true).s5 = a.s1 ∧
      (rotateFaceArray a true).s6 = a.s8 ∧ (rotateFaceArray a true).s7 = a.s5 ∧
      (rotateFaceArray a true).s8 = a.s2) ∧
    rotateFaceArray (rotateFaceArray a true) false = a ∧
    rotateFaceArray (rotateFaceArray a false) true = a := by
  intro a
  exact ⟨⟨rfl, rfl, rfl, rfl, rfl, rfl, rfl, rfl, rfl⟩, rfl, rfl⟩

/-- Claim C1 counterexample: on the solved cube, a clockwise R turn gives the
U strip (tuple 0) the old content of the F strip (tuple 1), not the old
content of the B strip (tuple 3) as the claimed new-tuple-i-equals-old-tuple
i-minus-1 rule would require. -/
theorem C1_counterexample :
    ¬(readStrip (rotateAdjacentEdges solvedFaces Face.R true) (stripAt Face.R 0) =
        readStrip solvedFaces (stripAt Face.R 3)) := by
  decide

/-- Claim C1 as amended: the per-face neighbor-strip lists are exactly the
ones the spec gives, but a clockwise turn moves content the other way:
tuple i's new content equals tuple i+1's old content (wrapping modulo 4),
and a counter-clockwise turn gives tuple i the old content of tuple i-1. -/
theorem C1_amended_strip_shift :
    (rotations Face.R true =
        [(Face.U, [2, 5, 8]), (Face.F, [2, 5, 8]), (Face.D, [2, 5, 8]), (Face.B, [6, 3, 0])] ∧
      rotations Face.L true =
        [(Face.U, [0, 3, 6]), (Face.B, [8, 5, 2]), (Face.D, [0, 3, 6]), (Face.F, [0, 3, 6])] ∧
      rotations Face.U true =
        [(Face.B, [0, 1, 2]), (Face.R, [0, 1, 2]), (Face.F, [0, 1, 2]), (Face.L, [0, 1, 2])] ∧
      rotations Face.D true =
        [(Face.F, [6, 7, 8]), (Face.R, [6, 7, 8]), (Face.B, [6, 7, 8]), (Face.L, [6, 7, 8])] ∧
      rotations Face.F true =
        [(Face.U, [6, 7, 8]), (Face.R, [0, 3, 6]), (Face.D, [2, 1, 0]), (Face.L, [8, 5, 2])] ∧
      rotations Face.B true =
        [(Face.U, [2, 1, 0]), (Face.L, [0, 3, 6]), (Face.D, [6, 7, 8]), (Face.R, [8, 5, 2])]) ∧
    ∀ (st : Faces) (f : Face) (i : Fin 4),
      readStrip (rotateAdjacentEdges st f true) (stripAt f i.val) =
        readStrip st (stripAt f ((i.val + 1) % 4)) ∧
      readStrip (rotateAdjacentEdges st f false) (stripAt f i.val) =
        readStrip st (stripAt f ((i.val + 3) % 4)) := by
  refine ⟨by decide, ?_⟩
  intro st f i
  fin_cases i <;> cases f <;>
    exact ⟨by
      simp [rotateAdjacentEdges, rotations, shiftCycle, moveStrip, moveStripGo,
        writeStrip, writeStripGo, readStrip, setSticker, Faces.set, Faces.get,
        FaceArr.set, FaceArr.get, stripAt], by
      simp [rotateAdjacentEdges, rotations, shiftCycle, moveStrip, moveStripGo,
        writeStrip, writeStripGo, readStrip, setSticker, Faces.set, Faces.get,
        FaceArr.set, FaceArr.get, stripAt]⟩

/-- Claim C2: for every parseable move token, executing it and then executing
its reverse restores the exact 54-sticker facelet arrangement, from any
state; the resulting completion flag agrees with the uniformity check of the
restored stickers. -/
theorem C2_move_then_reverse_restores (st : CubeState) (move : String) (md : MoveData)
    (h : parseMove move = some md) :
    ((executeMove (executeMove st move).1 (getReverseMove move)).1).faces = st.faces ∧
    ((executeMove (executeMove st move).1 (getReverseMove move)).1).isCompleted =
      checkCompleted st.faces := by
  obtain ⟨f, cw, dbl⟩ := md
  cases dbl <;> cases cw <;>
    simp [executeMove, getReverseMove, h, parse_faceStr, parse_faceStr_prime,
      parse_faceStr_two, rotateFace_cw_ccw, rotateFace_ccw_cw, rotateFace_four]

/-- Witness for C2: the spec scenario itself; reset, turn R, execute the
computed reverse of R, and the state shows the reset stickers with the
completion flag true. -/
theorem C2_witness :
    parseMove "R" = some ⟨Face.R, true, false⟩ ∧
    ((executeMove (executeMove resetState "R").1 (getReverseMove "R")).1).faces =
      resetState.faces ∧
    ((executeMove (executeMove resetState "R").1 (getReverseMove "R")).1).isCompleted = true := by
  refine ⟨by decide,
    (C2_move_then_reverse_restores resetState "R" ⟨Face.R, true, false⟩ (by decide)).1, ?_⟩
  have h2 := (C2_move_then_reverse_restores resetState "R" ⟨Face.R, true, false⟩ (by decide)).2
  rw [h2]
  decide

theorem countColor_executeMove (st : CubeState) (m : String) (c : Color) :
    countColor ((executeMove st m).1.faces) c = countColor st.faces c := by
  cases hp : parseMove m with
  | none => simp [executeMove, hp]
  | some md =>
    obtain ⟨f, cw, dbl⟩ := md
    cases dbl <;> simp [executeMove, hp, countColor_rotateFace]

theorem countColor_applyOp (st : CubeState) (op : Op)
    (h : ∀ c, countColor st.faces c = 9) :
    ∀ c, countColor ((applyOp st op).faces) c = 9 := by
  cases op with
  | exec m =>
    intro c
    simp [applyOp, countColor_executeMove, h c]
  | undo =>
    intro c
    cases hl : st.moveHistory.getLast? <;>
      simp [applyOp, undoLastMove, hl, countColor_executeMove, h c]
  | reset =>
    intro c
    cases c <;> simp [applyOp] <;> decide

/-- Claim C3: starting from the solved state, after any finite sequence of
engine operations (executeMove with arbitrary input, undoLastMove, reset),
every one of the 6 colors still appears exactly 9 times across the 54
stickers. -/
theorem C3_color_count_invariant : ∀ (ops : List Op) (c : Color),
    countColor ((ops.foldl applyOp resetState).faces) c = 9 := by
  have base : ∀ c, countColor resetState.faces c = 9 := by
    intro c
    cases c <;> decide
  have main : ∀ (ops : List Op) (st : CubeState),
      (∀ c, countColor st.faces c = 9) → ∀ c, countColor ((ops.foldl applyOp st).faces) c = 9 := by
    intro ops
    induction ops with
    | nil => intro st h c; exact h c
    | cons o os ih => intro st h c; exact ih (applyOp st o) (countColor_applyOp st o h) c
  exact fun ops c => main ops resetState base c

theorem runLen_break (fo : Option Char) (cw : Bool) (rest : List String)
    (h : runBreak fo cw rest) : runLen fo cw rest = 0 := by
  cases rest with
  | nil => rfl
  | cons m t =>
    have hm : tokenMatches fo cw m = false := h
    simp [runLen, hm]

theorem runLen_replicate (fo : Option Char) (cw : Bool) (tok : String) (j : Nat)
    (rest : List String) (hm : tokenMatches fo cw tok = true) (hb : runBreak fo cw rest) :
    runLen fo cw (List.replicate j tok ++ rest) = j := by
  induction j with
  | zero => simpa using runLen_break fo cw rest hb
  | succ n ih => simp [List.replicate_succ, runLen, hm, ih]

theorem optimizeSolution_run (tok : String) (k : Nat) (rest : List String)
    (hb : runBreak (headChar tok) (isCwTok tok) rest) :
    optimizeSolution (List.replicate k tok ++ rest) =
      (if k % 4 = 1 then [tok]
       else if k % 4 = 2 then [charAt0Str tok ++ "2"]
       else if k % 4 = 3 then [charAt0Str tok ++ (if isCwTok tok then primeStr else "")]
       else []) ++ optimizeSolution rest := by
  cases k with
  | zero => simp
  | succ n =>
    have hm : tokenMatches (headChar tok) (isCwTok tok) tok = true := by
      simp [tokenMatches]
    have hr := runLen_replicate (headChar tok) (isCwTok tok) tok n rest hm hb
    rw [List.replicate_succ, List.cons_append]
    simp only [optimizeSolution, hr]
    have hd : List.drop (1 + n - 1) (List.replicate n tok ++ rest) = rest := by
      have h1n : 1 + n - 1 = n := by omega
      rw [h1n]
      exact List.drop_left' (List.length_replicate n tok)
    rw [hd]
    have ha : 1 + n = n + 1 := Nat.add_comm 1 n
    rw [ha]

/-- Claim C8: a maximal run of k same-face same-direction quarter-turn tokens
is merged by k mod 4 (0 drops the run, 1 keeps the single quarter turn,
2 emits the half turn, 3 emits one turn in the opposite direction), for both
the clockwise and the counter-clockwise token families, in front of any
non-extending remainder. -/
theorem C8_run_merge (f : Char) (k : Nat) (rest : List String) :
    (f ≠ primeChar → runBreak (some f) true rest →
      optimizeSolution (List.replicate k (String.singleton f) ++ rest) =
        emitQuarter f true k ++ optimizeSolution rest) ∧
    (runBreak (some f) false rest →
      optimizeSolution (List.replicate k (String.singleton f ++ primeStr) ++ rest) =
        emitQuarter f false k ++ optimizeSolution rest) := by
  constructor
  · intro hf hb
    have h1 : headChar (String.singleton f) = some f := rfl
    have h2 : isCwTok (String.singleton f) = true := by
      simp [isCwTok, String.singleton]
      exact fun hc => hf hc.symm
    have key := optimizeSolution_run (String.singleton f) k rest (by rw [h1, h2]; exact hb)
    rw [key]
    have h3 : charAt0Str (String.singleton f) = String.singleton f := rfl
    simp [emitQuarter, h2, h3]
  · intro hb
    have h1 : headChar (String.singleton f ++ primeStr) = some f := rfl
    have h2 : isCwTok (String.singleton f ++ primeStr) = false := by
      simp [isCwTok, String.singleton, primeStr]
    have key := optimizeSolution_run (String.singleton f ++ primeStr) k rest
      (by rw [h1, h2]; exact hb)
    rw [key]
    have h3 : charAt0Str (String.singleton f ++ primeStr) = String.singleton f := rfl
    simp [emitQuarter, h2, h3]

/-- Witness for C8: the three merges the spec lists, obtained from the run
theorem at face R with run lengths 4, 2 and 3. -/
theorem C8_witness :
    optimizeSolution ["R", "R", "R", "R"] = [] ∧
    optimizeSolution ["R", "R"] = ["R2"] ∧
    optimizeSolution ["R", "R", "R"] = ["R" ++ primeStr] := by
  have h4 := (C8_run_merge 'R' 4 []).1 (by decide) trivial
  have h2 := (C8_run_merge 'R' 2 []).1 (by decide) trivial
  have h3 := (C8_run_merge 'R' 3 []).1 (by decide) trivial
  have e4 : List.replicate 4 (String.singleton 'R') ++ ([] : List String) =
      ["R", "R", "R", "R"] := by decide
  have e2 : List.replicate 2 (String.singleton 'R') ++ ([] : List String) = ["R", "R"] := by decide
  have e3 : List.replicate 3 (String.singleton 'R') ++ ([] : List String) =
      ["R", "R", "R"] := by decide
  rw [e4] at h4
  rw [e2] at h2
  rw [e3] at h3
  rw [h4, h2, h3]
  refine ⟨?_, ?_, ?_⟩ <;> simp [emitQuarter, optimizeSolution] <;> decide

/-- Claim C10: `optimizeSolution` counts a half-turn token as one clockwise
run element and never expands it, so merging half-turn runs can change the
cube permutation the sequence denotes: two half turns cancel on the cube but
optimize to one half turn. -/
theorem C10_half_turn_tokens :
    optimizeSolution ["R2", "R2"] = ["R2"] ∧
    optimizeSolution ["R2", "R"] = ["R2"] ∧
    ¬((applyMoves resetState ["R2", "R2"]).faces =
        (applyMoves resetState (optimizeSolution ["R2", "R2"])).faces) := by
  have e0 : optimizeSolution ([] : List String) = [] := by simp [optimizeSolution]
  have hrl1 : runLen (headChar "R2") (isCwTok "R2") ["R2"] = 1 := by decide
  have hrl2 : runLen (headChar "R2") (isCwTok "R2") ["R"] = 1 := by decide
  have h1 : optimizeSolution ["R2", "R2"] = ["R2"] := by
    simp only [optimizeSolution, hrl1]
    simp [e0]
    decide
  have h2 : optimizeSolution ["R2", "R"] = ["R2"] := by
    simp only [optimizeSolution, hrl2]
    simp [e0]
    decide
  refine ⟨h1, h2, ?_⟩
  rw [h1]
  have p1 : parseMove "R2" = some ⟨Face.R, true, true⟩ := by decide
  simp [applyMoves, executeMove, p1, rotateFace, rotateAdjacentEdges, rotations, shiftCycle,
    moveStrip, moveStripGo, writeStrip, writeStripGo, readStrip, setSticker, Faces.set, Faces.get,
    FaceArr.set, FaceArr.get, rotateFaceArray, resetState, solvedFaces, fillFace]

theorem sampleLoop_valid (d : String) (r : Nat → Nat) (lm llm : Option Char) :
    ∀ (fuel attempts k : Nat), 100 ≤ fuel + attempts →
      (sampleLoop d r lm llm fuel attempts k).2.1 < 100 →
      isValidMove (sampleLoop d r lm llm fuel attempts k).1 lm llm = true := by
  intro fuel
  induction fuel with
  | zero =>
    intro attempts k hge hlt
    simp only [sampleLoop] at hlt
    omega
  | succ n ih =>
    intro attempts k hge hlt
    simp only [sampleLoop] at hlt ⊢
    by_cases hc : (attempts + 1 < 100 && !(isValidMove (pickAttempt d r k) lm llm)) = true
    · rw [if_pos hc] at hlt ⊢
      exact ih (attempts + 1) (k + 2) (by omega) hlt
    · rw [if_neg hc] at hlt ⊢
      simp only [Bool.and_eq_true, not_and, Bool.not_eq_true', Bool.not_eq_false,
        decide_eq_true_eq] at hc
      exact hc hlt

theorem pickMove_valid (d : String) (r : Nat → Nat) (lm llm : Option Char) (k : Nat)
    (move : String) (k2 : Nat) (h : pickMove d r lm llm k = some (move, k2)) :
    isValidMove move lm llm = true := by
  unfold pickMove at h
  by_cases hc : (sampleLoop d r lm llm 100 0 k).2.1 ≥ 100
  · rw [if_pos hc] at h
    cases h
  · rw [if_neg hc] at h
    have hv := sampleLoop_valid d r lm llm 100 0 k (by omega) (by omega)
    have hm : (sampleLoop d r lm llm 100 0 k).1 = move := by
      injection h with h1
      exact congrArg Prod.fst h1
    rw [hm] at hv
    exact hv

theorem genLoop_chainOK (d : String) (r : Nat → Nat) :
    ∀ (n k : Nat) (lm llm : Option Char), chainOK lm llm (genLoop d r n k lm llm) := by
  intro n
  induction n with
  | zero => intro k lm llm; trivial
  | succ m ih =>
    intro k lm llm
    simp only [genLoop]
    cases hp : pickMove d r lm llm k with
    | none => trivial
    | some p =>
      obtain ⟨move, k2⟩ := p
      exact ⟨pickMove_valid d r lm llm k move k2 hp, ih k2 (extractFace move) lm⟩

theorem chainOK_noRepeat : ∀ (l : List String) (lm llm : Option Char),
    chainOK lm llm l → noRepeat l := by
  intro l
  induction l with
  | nil => intro _ _ _; trivial
  | cons a t ih =>
    intro lm llm h
    cases t with
    | nil => trivial
    | cons b t2 =>
      obtain ⟨_, hrest⟩ := h
      refine ⟨?_, ih (extractFace a) lm hrest⟩
      intro heq
      have hb := hrest.1
      simp [isValidMove, heq] at hb

theorem chainOK_noSandwich : ∀ (l : List String) (lm llm : Option Char),
    chainOK lm llm l → noSandwich l := by
  intro l
  induction l with
  | nil => intro _ _ _; trivial
  | cons a t ih =>
    intro lm llm h
    cases t with
    | nil => trivial
    | cons b t2 =>
      cases t2 with
      | nil => trivial
      | cons c2 t3 =>
        obtain ⟨_, hrest⟩ := h
        refine ⟨?_, ih (extractFace a) lm hrest⟩
        rintro ⟨hopp, heq⟩
        have hc := hrest.2.1
        simp [isValidMove, heq, ← hopp] at hc

/-- Claim C7 test: the generated scramble never repeats a face on consecutive
moves and never contains the pattern face A, opposite of A, face A, for every
requested length, difficulty and outcome of the random draws. -/
theorem C7_scramble_constraints (len : Option Nat) (difficulty : String) (r : Nat → Nat) :
    noRepeat (generateScramble len difficulty r) ∧
    noSandwich (generateScramble len difficulty r) := by
  constructor
  · exact chainOK_noRepeat _ none none (genLoop_chainOK difficulty r _ 0 none none)
  · exact chainOK_noSandwich _ none none (genLoop_chainOK difficulty r _ 0 none none)

theorem validateStep_spec (s : List String) (errors : List String) (i : Nat) :
    validateStep s errors i = errors ++ (stepSpec s i).toList := by
  simp only [validateStep, stepSpec]
  split_ifs <;> simp

theorem foldl_validateStep (s : List String) :
    ∀ (idxs : List Nat) (errors : List String),
      idxs.foldl (validateStep s) errors = errors ++ idxs.filterMap (stepSpec s) := by
  intro idxs
  induction idxs with
  | nil => intro errors; simp
  | cons i t ih =>
    intro errors
    simp only [List.foldl_cons, List.filterMap_cons]
    rw [validateStep_spec]
    cases hs : stepSpec s i with
    | none => simp [ih]
    | some e => simp [ih]

/-- Claim C9 as amended: the validity flag is true exactly when the violation
list is empty, and the violation list is, position by position, the format
message (move text only, no position) for a malformed token, else the
sequence message (tagged with the 1-based position) for an adjacency
violation after the first token. -/
theorem C9_amended_validate (s : List String) :
    ((validateScramble s).1 = true ↔ (validateScramble s).2 = []) ∧
    (validateScramble s).2 = specErrors s := by
  have h : (List.range s.length).foldl (validateStep s) [] = specErrors s := by
    rw [foldl_validateStep]
    simp [specErrors]
  refine ⟨?_, by simpa [validateScramble] using h⟩
  simp [validateScramble]

/-- Claim C9 counterexample: two malformed tokens at positions 1 and 2
produce two identical violation messages, so format violations are not
tagged with the position at which they occur. -/
theorem C9_counterexample :
    (validateScramble ["X", "X"]).2 = ["Invalid move format: X", "Invalid move format: X"] ∧
    (validateScramble ["X", "X"]).2.getD 0 "a" = (validateScramble ["X", "X"]).2.getD 1 "b" := by
  constructor <;> decide

theorem optimizeSolution_cons (m : String) (rest : List String) :
    optimizeSolution (m :: rest) =
      (if (1 + runLen (headChar m) (isCwTok m) rest) % 4 = 1 then [m]
       else if (1 + runLen (headChar m) (isCwTok m) rest) % 4 = 2 then [charAt0Str m ++ "2"]
       else if (1 + runLen (headChar m) (isCwTok m) rest) % 4 = 3 then
         [charAt0Str m ++ (if isCwTok m then primeStr else "")]
       else []) ++ optimizeSolution (List.drop (runLen (headChar m) (isCwTok m) rest) rest) := by
  simp only [optimizeSolution, Nat.add_sub_cancel_left]

theorem optimizeSolution_cons_ne (t0 t1 : String) (l : List String)
    (h : tokenMatches (headChar t0) (isCwTok t0) t1 = false) :
    optimizeSolution (t0 :: t1 :: l) = t0 :: optimizeSolution (t1 :: l) := by
  have hr : runLen (headChar t0) (isCwTok t0) (t1 :: l) = 0 := by
    simp [runLen, h]
  rw [optimizeSolution_cons, hr]
  simp

theorem stageLoop_eq_of_pred (pred : CubeState → Bool) (template : List String)
    (adjust : Nat → String) (st : CubeState) (h : pred st = true) :
    ∀ fuel attempt, stageLoop pred template adjust fuel attempt st = (st, []) := by
  intro fuel attempt
  cases fuel with
  | zero => rfl
  | succ n => simp [stageLoop, h]

theorem stageLoop_shape (pred : CubeState → Bool) (template : List String)
    (adjust : Nat → String) (fuel attempt : Nat) (st : CubeState) :
    (stageLoop pred template adjust fuel attempt st).2 = [] ∨
      ∃ tail, (stageLoop pred template adjust fuel attempt st).2 = template ++ tail := by
  cases fuel with
  | zero => left; rfl
  | succ n =>
    by_cases h : pred st = true
    · left
      simp [stageLoop, h]
    · right
      refine ⟨adjust attempt ::
        (stageLoop pred template adjust n (attempt + 1)
          ((executeMove (applyMoves st template) (adjust attempt)).1)).2, ?_⟩
      simp [stageLoop, h]

theorem stageLoop_empty (pred : CubeState → Bool) (template : List String)
    (adjust : Nat → String) (fuel attempt : Nat) (st : CubeState)
    (hf : fuel ≠ 0) (hne : template ≠ [])
    (h : (stageLoop pred template adjust fuel attempt st).2 = []) :
    (stageLoop pred template adjust fuel attempt st).1 = st ∧ pred st = true := by
  cases fuel with
  | zero => exact absurd rfl hf
  | succ n =>
    by_cases hp : pred st = true
    · simp [stageLoop, hp]
    · exfalso
      rw [show (stageLoop pred template adjust (n + 1) attempt st).2 =
        template ++ adjust attempt ::
          (stageLoop pred template adjust n (attempt + 1)
            ((executeMove (applyMoves st template) (adjust attempt)).1)).2 from by
        simp [stageLoop, hp]] at h
      rcases List.append_eq_nil.mp h with ⟨h1, h2⟩
      exact hne h1

theorem opt_join_ne (parts : List (List String))
    (hall : ∀ p ∈ parts, p = [] ∨
        ∃ t0 t1 l, p = t0 :: t1 :: l ∧ tokenMatches (headChar t0) (isCwTok t0) t1 = false)
    (hne : parts.flatten ≠ []) : optimizeSolution parts.flatten ≠ [] := by
  induction parts with
  | nil => simp at hne
  | cons p ps ih =>
    rcases hall p (List.mem_cons_self p ps) with hp | ⟨t0, t1, l, hpe, hmis⟩
    · rw [List.flatten_cons, hp, List.nil_append] at hne ⊢
      exact ih (fun q hq => hall q (List.mem_cons_of_mem p hq)) hne
    · rw [List.flatten_cons, hpe, List.cons_append, List.cons_append]
      rw [optimizeSolution_cons_ne t0 t1 _ hmis]
      simp

theorem shape_to_good (template : List String) (t0 t1 : String) (l0 : List String)
    (htmpl : template = t0 :: t1 :: l0)
    (hmis : tokenMatches (headChar t0) (isCwTok t0) t1 = false)
    (m : List String) (hshape : m = [] ∨ ∃ tail, m = template ++ tail) :
    m = [] ∨ ∃ a b l, m = a :: b :: l ∧ tokenMatches (headChar a) (isCwTok a) b = false := by
  rcases hshape with h | ⟨tail, h⟩
  · left
    exact h
  · right
    refine ⟨t0, t1, l0 ++ tail, ?_, hmis⟩
    rw [h, htmpl]
    simp

theorem solve_empty_implies (cs : CubeState) (r : Nat → Nat) (h : solve cs r = []) :
    isWhiteCrossSolved (createWorkingState cs) = true ∧ checkCompleted cs.faces = true := by
  rcases hq1 : stageLoop isWhiteCrossSolved wcTemplate
    (fun a => uMoves.getD (r a % 3) "U") 20 0 (createWorkingState cs) with ⟨s1, m1⟩
  rcases hq2 : stageLoop areWhiteCornersSolved cornersTemplate (fun _ => "U") 30 0 s1
    with ⟨s2, m2⟩
  rcases hq3 : stageLoop isSecondLayerSolved secondTemplate (fun _ => "U") 25 0 s2
    with ⟨s3, m3⟩
  rcases hq4 : stageLoop isYellowCrossSolved yellowCrossTemplate (fun _ => "U") 15 0 s3
    with ⟨s4, m4⟩
  rcases hq5 : stageLoop areYellowCornersOriented suneTemplate (fun _ => "U") 20 0 s4
    with ⟨s5, m5⟩
  rcases hq6 : stageLoop areLastLayerCornersSolved cornerPLLTemplate (fun _ => "U") 10 0 s5
    with ⟨s6, m6⟩
  rcases hq7 : stageLoop areLastLayerEdgesSolved edgePLLTemplate (fun _ => "U") 10 0 s6
    with ⟨s7, m7⟩
  have hsolve : solve cs r = optimizeSolution (m1 ++ m2 ++ m3 ++ m4 ++ m5 ++ (m6 ++ m7)) := by
    simp only [solve, solveWhiteCross, solveWhiteCorners, solveSecondLayer, solveYellowCross,
      orientYellowCorners, permuteLastLayer, hq1, hq2, hq3, hq4, hq5, hq6, hq7]
  rw [hsolve] at h
  by_cases hj : m1 ++ m2 ++ m3 ++ m4 ++ m5 ++ (m6 ++ m7) = ([] : List String)
  · simp only [List.append_eq_nil] at hj
    obtain ⟨⟨⟨⟨⟨h1, h2⟩, h3⟩, h4⟩, h5⟩, h6, h7⟩ := hj
    have w1 := stageLoop_empty isWhiteCrossSolved wcTemplate
      (fun a => uMoves.getD (r a % 3) "U") 20 0 (createWorkingState cs)
      (by decide) (by decide) (by rw [hq1]; exact h1)
    have hs1 : s1 = createWorkingState cs := by
      have hx := w1.1
      rw [hq1] at hx
      exact hx
    have w2 := stageLoop_empty areWhiteCornersSolved cornersTemplate (fun _ => "U") 30 0 s1
      (by decide) (by decide) (by rw [hq2]; exact h2)
    have hs2 : s2 = s1 := by
      have hx := w2.1
      rw [hq2] at hx
      exact hx
    have w3 := stageLoop_empty isSecondLayerSolved secondTemplate (fun _ => "U") 25 0 s2
      (by decide) (by decide) (by rw [hq3]; exact h3)
    have hs3 : s3 = s2 := by
      have hx := w3.1
      rw [hq3] at hx
      exact hx
    have w4 := stageLoop_empty isYellowCrossSolved yellowCrossTemplate (fun _ => "U") 15 0 s3
      (by decide) (by decide) (by rw [hq4]; exact h4)
    have hs4 : s4 = s3 := by
      have hx := w4.1
      rw [hq4] at hx
      exact hx
    have w5 := stageLoop_empty areYellowCornersOriented suneTemplate (fun _ => "U") 20 0 s4
      (by decide) (by decide) (by rw [hq5]; exact h5)
    have hs5 : s5 = s4 := by
      have hx := w5.1
      rw [hq5] at hx
      exact hx
    have w6 := stageLoop_empty areLastLayerCornersSolved cornerPLLTemplate (fun _ => "U") 10 0 s5
      (by decide) (by decide) (by rw [hq6]; exact h6)
    have hs6 : s6 = s5 := by
      have hx := w6.1
      rw [hq6] at hx
      exact hx
    have w7 := stageLoop_empty areLastLayerEdgesSolved edgePLLTemplate (fun _ => "U") 10 0 s6
      (by decide) (by decide) (by rw [hq7]; exact h7)
    have hp7 : areLastLayerEdgesSolved s6 = true := w7.2
    rw [hs6, hs5, hs4, hs3, hs2, hs1] at hp7
    refine ⟨w1.2, ?_⟩
    simpa [areLastLayerEdgesSolved, createWorkingState] using hp7
  · exfalso
    have hfl : [m1, m2, m3, m4, m5, m6, m7].flatten =
        m1 ++ m2 ++ m3 ++ m4 ++ m5 ++ (m6 ++ m7) := by
      simp
    have g1 : m1 = [] ∨ ∃ tail, m1 = wcTemplate ++ tail := by
      have hx := stageLoop_shape isWhiteCrossSolved wcTemplate
        (fun a => uMoves.getD (r a % 3) "U") 20 0 (createWorkingState cs)
      rw [hq1] at hx
      exact hx
    have g2 : m2 = [] ∨ ∃ tail, m2 = cornersTemplate ++ tail := by
      have hx := stageLoop_shape areWhiteCornersSolved cornersTemplate (fun _ => "U") 30 0 s1
      rw [hq2] at hx
      exact hx
    have g3 : m3 = [] ∨ ∃ tail, m3 = secondTemplate ++ tail := by
      have hx := stageLoop_shape isSecondLayerSolved secondTemplate (fun _ => "U") 25 0 s2
      rw [hq3] at hx
      exact hx
    have g4 : m4 = [] ∨ ∃ tail, m4 = yellowCrossTemplate ++ tail := by
      have hx := stageLoop_shape isYellowCrossSolved yellowCrossTemplate (fun _ => "U") 15 0 s3
      rw [hq4] at hx
      exact hx
    have g5 : m5 = [] ∨ ∃ tail, m5 = suneTemplate ++ tail := by
      have hx := stageLoop_shape areYellowCornersOriented suneTemplate (fun _ => "U") 20 0 s4
      rw [hq5] at hx
      exact hx
    have g6 : m6 = [] ∨ ∃ tail, m6 = cornerPLLTemplate ++ tail := by
      have hx := stageLoop_shape areLastLayerCornersSolved cornerPLLTemplate (fun _ => "U") 10 0 s5
      rw [hq6] at hx
      exact hx
    have g7 : m7 = [] ∨ ∃ tail, m7 = edgePLLTemplate ++ tail := by
      have hx := stageLoop_shape areLastLayerEdgesSolved edgePLLTemplate (fun _ => "U") 10 0 s6
      rw [hq7] at hx
      exact hx
    have hgood : ∀ p ∈ [m1, m2, m3, m4, m5, m6, m7], p = [] ∨
        ∃ a b l, p = a :: b :: l ∧ tokenMatches (headChar a) (isCwTok a) b = false := by
      intro p hp
      simp only [List.mem_cons, List.not_mem_nil, or_false] at hp
      rcases hp with hp | hp | hp | hp | hp | hp | hp <;> rw [hp]
      · exact shape_to_good wcTemplate "F" "U" _ rfl (by decide) m1 g1
      · exact shape_to_good cornersTemplate "R" "U" _ rfl (by decide) m2 g2
      · exact shape_to_good secondTemplate "U" "R" _ rfl (by decide) m3 g3
      · exact shape_to_good yellowCrossTemplate "F" "R" _ rfl (by decide) m4 g4
      · exact shape_to_good suneTemplate "R" "U" _ rfl (by decide) m5 g5
      · exact shape_to_good cornerPLLTemplate ("R" ++ primeStr) "F" _ rfl (by decide) m6 g6
      · exact shape_to_good edgePLLTemplate "R" "U" _ rfl (by decide) m7 g7
    have hne := opt_join_ne [m1, m2, m3, m4, m5, m6, m7] hgood (by rw [hfl]; exact hj)
    rw [hfl] at hne
    exact hne h

/-- Claim C5 as amended: solve returns the empty move list when the given
cube is complete with a fully yellow D face and a fully white U face (the
stage predicates' own targets); and solve returns an empty list only when
the cube started already complete. -/
theorem C5_amended_solve_empty_iff (cs : CubeState) (r : Nat → Nat) :
    ((checkCompleted cs.faces = true ∧ faceAllIs cs.faces.fD Color.yellow = true ∧
        faceAllIs cs.faces.fU Color.white = true) → solve cs r = []) ∧
    (solve cs r = [] → checkCompleted cs.faces = true) := by
  constructor
  · rintro ⟨hC, hD, hU⟩
    have hC2 := hC
    simp only [checkCompleted, faceUniform, Bool.and_eq_true, beq_iff_eq] at hC2
    simp only [faceAllIs, Bool.and_eq_true, beq_iff_eq] at hD hU
    have p1 : isWhiteCrossSolved (createWorkingState cs) = true := by
      simp [isWhiteCrossSolved, createWorkingState, hD]
    have p2 : areWhiteCornersSolved (createWorkingState cs) = true := by
      simp [areWhiteCornersSolved, faceAllIs, createWorkingState, hD]
    have p3 : isSecondLayerSolved (createWorkingState cs) = true := by
      simp [isSecondLayerSolved, middleRowOK, createWorkingState, hC2]
    have p4 : isYellowCrossSolved (createWorkingState cs) = true := by
      simp [isYellowCrossSolved, createWorkingState, hU]
    have p5 : areYellowCornersOriented (createWorkingState cs) = true := by
      simp [areYellowCornersOriented, faceAllIs, createWorkingState, hU]
    have p6 : areLastLayerCornersSolved (createWorkingState cs) = true := by
      simpa [areLastLayerCornersSolved] using p3
    have p7 : areLastLayerEdgesSolved (createWorkingState cs) = true := by
      simpa [areLastLayerEdgesSolved, createWorkingState] using hC
    have e1 : solveWhiteCross r (createWorkingState cs) = (createWorkingState cs, []) :=
      stageLoop_eq_of_pred _ _ _ _ p1 20 0
    have e2 : solveWhiteCorners (createWorkingState cs) = (createWorkingState cs, []) :=
      stageLoop_eq_of_pred _ _ _ _ p2 30 0
    have e3 : solveSecondLayer (createWorkingState cs) = (createWorkingState cs, []) :=
      stageLoop_eq_of_pred _ _ _ _ p3 25 0
    have e4 : solveYellowCross (createWorkingState cs) = (createWorkingState cs, []) :=
      stageLoop_eq_of_pred _ _ _ _ p4 15 0
    have e5 : orientYellowCorners (createWorkingState cs) = (createWorkingState cs, []) :=
      stageLoop_eq_of_pred _ _ _ _ p5 20 0
    have e6 : permuteLastLayer (createWorkingState cs) = (createWorkingState cs, []) := by
      simp [permuteLastLayer, stageLoop_eq_of_pred _ _ _ _ p6 10 0,
        stageLoop_eq_of_pred _ _ _ _ p7 10 0]
    simp [solve, e1, e2, e3, e4, e5, e6, optimizeSolution]
  · intro h
    exact (solve_empty_implies cs r h).2

/-- Witness for C5: the reset state is complete with the D face yellow and
the U face white, so solve returns the empty move list on it. -/
theorem C5_witness : solve resetState (fun _ => 0) = [] :=
  (C5_amended_solve_empty_iff resetState (fun _ => 0)).1 ⟨by decide, by decide, by decide⟩

/-- Claim C5 counterexample: a cube whose U and D colors are swapped is
complete (every face uniform), yet solve does not return the empty list,
because the white-cross stage's predicate demands yellow on D and the stage
therefore applies its template. -/
theorem C5_counterexample :
    checkCompleted (Faces.mk (fillFace Color.yellow) (fillFace Color.white)
        (fillFace Color.red) (fillFace Color.orange) (fillFace Color.blue)
        (fillFace Color.green)) = true ∧
    solve ⟨Faces.mk (fillFace Color.yellow) (fillFace Color.white) (fillFace Color.red)
        (fillFace Color.orange) (fillFace Color.blue) (fillFace Color.green), [], true⟩
      (fun _ => 0) ≠ [] := by
  refine ⟨by decide, fun hsol => ?_⟩
  have hwc := (solve_empty_implies
    ⟨Faces.mk (fillFace Color.yellow) (fillFace Color.white) (fillFace Color.red)
      (fillFace Color.orange) (fillFace Color.blue) (fillFace Color.green), [], true⟩
    (fun _ => 0) hsol).1
  have hfalse : isWhiteCrossSolved (createWorkingState
      ⟨Faces.mk (fillFace Color.yellow) (fillFace Color.white) (fillFace Color.red)
        (fillFace Color.orange) (fillFace Color.blue) (fillFace Color.green), [], true⟩) =
      false := by decide
  rw [hfalse] at hwc
  exact absurd hwc (by decide)

theorem writeFacesS_mem (c : CubeRef) (s : Store) (fs : Faces) (k : Nat)
    (h : ∀ f, k ≠ c.arr f) : (writeFacesS c s fs).mem k = s.mem k := by
  simp [writeFacesS, writeArr, h Face.U, h Face.D, h Face.R, h Face.L, h Face.F, h Face.B]

theorem writeFacesS_rest (c : CubeRef) (s : Store) (fs : Faces) :
    (writeFacesS c s fs).hmem = s.hmem ∧ (writeFacesS c s fs).next = s.next ∧
      (writeFacesS c s fs).hnext = s.hnext := by
  simp [writeFacesS, writeArr]

theorem executeMoveS_frame (c : CubeRef) (s : Store) (move : String) :
    (executeMoveS c s move).1.1.arr = c.arr ∧
    (executeMoveS c s move).1.1.hist = c.hist ∧
    (executeMoveS c s move).1.2.next = s.next ∧
    (executeMoveS c s move).1.2.hnext = s.hnext ∧
    (∀ k, (∀ f, k ≠ c.arr f) → (executeMoveS c s move).1.2.mem k = s.mem k) ∧
    (∀ k, k ≠ c.hist → (executeMoveS c s move).1.2.hmem k = s.hmem k) := by
  cases hp : parseMove move with
  | none => simp [executeMoveS, hp]
  | some md =>
    refine ⟨by simp [executeMoveS, hp], by simp [executeMoveS, hp],
      by simp [executeMoveS, hp, writeHist, writeFacesS, writeArr],
      by simp [executeMoveS, hp, writeHist, writeFacesS, writeArr], ?_, ?_⟩
    · intro k hk
      simp [executeMoveS, hp, writeHist, writeFacesS_mem c _ _ k hk]
    · intro k hk
      simp [executeMoveS, hp, writeHist, hk, writeFacesS, writeArr]

theorem applyMovesS_frame (moves : List String) : ∀ (c : CubeRef) (s : Store),
    (applyMovesS c s moves).1.arr = c.arr ∧
    (applyMovesS c s moves).1.hist = c.hist ∧
    (applyMovesS c s moves).2.next = s.next ∧
    (applyMovesS c s moves).2.hnext = s.hnext ∧
    (∀ k, (∀ f, k ≠ c.arr f) → (applyMovesS c s moves).2.mem k = s.mem k) ∧
    (∀ k, k ≠ c.hist → (applyMovesS c s moves).2.hmem k = s.hmem k) := by
  induction moves with
  | nil =>
    intro c s
    exact ⟨rfl, rfl, rfl, rfl, fun _ _ => rfl, fun _ _ => rfl⟩
  | cons m t ih =>
    intro c s
    have he := executeMoveS_frame c s m
    rcases hq : (executeMoveS c s m).1 with ⟨c1, s1⟩
    rw [hq] at he
    obtain ⟨ha, hh, hn, hhn, hm, hhm⟩ := he
    have hstep : applyMovesS c s (m :: t) = applyMovesS c1 s1 t := by
      simp [applyMovesS, hq]
    have ht := ih c1 s1
    rw [hstep]
    refine ⟨ht.1.trans ha, ht.2.1.trans hh, ht.2.2.1.trans hn, ht.2.2.2.1.trans hhn, ?_, ?_⟩
    · intro k hk
      have hk1 : ∀ f, k ≠ c1.arr f := by
        intro f
        rw [ha]
        exact hk f
      exact (ht.2.2.2.2.1 k hk1).trans (hm k hk)
    · intro k hk
      have hk1 : k ≠ c1.hist := by
        rw [hh]
        exact hk
      exact (ht.2.2.2.2.2 k hk1).trans (hhm k hk)

theorem stageLoopS_frame (pred : CubeRef → Store → Bool) (template : List String)
    (adjust : Nat → String) : ∀ (fuel attempt : Nat) (c : CubeRef) (s : Store),
    (stageLoopS pred template adjust fuel attempt c s).1.1.arr = c.arr ∧
    (stageLoopS pred template adjust fuel attempt c s).1.1.hist = c.hist ∧
    (stageLoopS pred template adjust fuel attempt c s).1.2.next = s.next ∧
    (stageLoopS pred template adjust fuel attempt c s).1.2.hnext = s.hnext ∧
    (∀ k, (∀ f, k ≠ c.arr f) →
      (stageLoopS pred template adjust fuel attempt c s).1.2.mem k = s.mem k) ∧
    (∀ k, k ≠ c.hist →
      (stageLoopS pred template adjust fuel attempt c s).1.2.hmem k = s.hmem k) := by
  intro fuel
  induction fuel with
  | zero =>
    intro attempt c s
    exact ⟨rfl, rfl, rfl, rfl, fun _ _ => rfl, fun _ _ => rfl⟩
  | succ n ih =>
    intro attempt c s
    by_cases hp : pred c s = true
    · have hstep : stageLoopS pred template adjust (n + 1) attempt c s = ((c, s), []) := by
        simp [stageLoopS, hp]
      rw [hstep]
      exact ⟨rfl, rfl, rfl, rfl, fun _ _ => rfl, fun _ _ => rfl⟩
    · rcases hq1 : applyMovesS c s template with ⟨c1, s1⟩
      rcases hq2 : (executeMoveS c1 s1 (adjust attempt)).1 with ⟨c2, s2⟩
      have hstep : (stageLoopS pred template adjust (n + 1) attempt c s).1 =
          (stageLoopS pred template adjust n (attempt + 1) c2 s2).1 := by
        simp [stageLoopS, hp, hq1, hq2]
      have h1 := applyMovesS_frame template c s
      rw [hq1] at h1
      have h2 := executeMoveS_frame c1 s1 (adjust attempt)
      rw [hq2] at h2
      have h3 := ih (attempt + 1) c2 s2
      rw [hstep]
      obtain ⟨a1, b1, n1, m1, f1, g1⟩ := h1
      obtain ⟨a2, b2, n2, m2, f2, g2⟩ := h2
      obtain ⟨a3, b3, n3, m3, f3, g3⟩ := h3
      refine ⟨a3.trans (a2.trans a1), b3.trans (b2.trans b1),
        n3.trans (n2.trans n1), m3.trans (m2.trans m1), ?_, ?_⟩
      · intro k hk
        have hk1 : ∀ f, k ≠ c1.arr f := fun f => by rw [a1]; exact hk f
        have hk2 : ∀ f, k ≠ c2.arr f := fun f => by rw [a2, a1]; exact hk f
        exact (f3 k hk2).trans ((f2 k hk1).trans (f1 k hk))
      · intro k hk
        have hk1 : k ≠ c1.hist := by rw [b1]; exact hk
        have hk2 : k ≠ c2.hist := by rw [b2, b1]; exact hk
        exact (g3 k hk2).trans ((g2 k hk1).trans (g1 k hk))

theorem allocArr_fst (s : Store) (a : FaceArr) : (allocArr s a).1 = s.next := rfl

theorem allocArr_next (s : Store) (a : FaceArr) : (allocArr s a).2.next = s.next + 1 := rfl

theorem allocArr_hnext (s : Store) (a : FaceArr) : (allocArr s a).2.hnext = s.hnext := rfl

theorem allocArr_hmem (s : Store) (a : FaceArr) : (allocArr s a).2.hmem = s.hmem := rfl

theorem allocArr_mem (s : Store) (a : FaceArr) (k : Nat) (h : k ≠ s.next) :
    (allocArr s a).2.mem k = s.mem k := by
  simp [allocArr, h]

theorem allocHist_fst (s : Store) (h : List String) : (allocHist s h).1 = s.hnext := rfl

theorem allocHist_next (s : Store) (h : List String) : (allocHist s h).2.next = s.next := rfl

theorem allocHist_hnext (s : Store) (h : List String) :
    (allocHist s h).2.hnext = s.hnext + 1 := rfl

theorem allocHist_mem (s : Store) (h : List String) : (allocHist s h).2.mem = s.mem := rfl

theorem allocHist_hmem (s : Store) (h : List String) (k : Nat) (hk : k ≠ s.hnext) :
    (allocHist s h).2.hmem k = s.hmem k := by
  simp [allocHist, hk]

theorem resetS_spec (s : Store) :
    (resetS s).1.hist = s.hnext ∧
    (resetS s).2.next = s.next + 6 ∧
    (resetS s).2.hnext = s.hnext + 1 ∧
    (∀ k, k < s.next → (resetS s).2.mem k = s.mem k) ∧
    (∀ k, k < s.hnext → (resetS s).2.hmem k = s.hmem k) := by
  rcases hU : allocArr s (fillFace Color.white) with ⟨nU, sU⟩
  rcases hD : allocArr sU (fillFace Color.yellow) with ⟨nD, sD⟩
  rcases hR : allocArr sD (fillFace Color.red) with ⟨nR, sR⟩
  rcases hL : allocArr sR (fillFace Color.orange) with ⟨nL, sL⟩
  rcases hF : allocArr sL (fillFace Color.blue) with ⟨nF, sF⟩
  rcases hB : allocArr sF (fillFace Color.green) with ⟨nB, sB⟩
  rcases hH : allocHist sB [] with ⟨nH, sH⟩
  have eU : sU.next = s.next + 1 ∧ sU.hnext = s.hnext ∧
      (∀ k, k ≠ s.next → sU.mem k = s.mem k) ∧ sU.hmem = s.hmem := by
    refine ⟨?_, ?_, ?_, ?_⟩ <;>
      first
        | (rw [show sU = (allocArr s (fillFace Color.white)).2 from by rw [hU]]; rfl)
        | (intro k hk
           rw [show sU = (allocArr s (fillFace Color.white)).2 from by rw [hU]]
           exact allocArr_mem s _ k hk)
  have eD : sD.next = sU.next + 1 ∧ sD.hnext = sU.hnext ∧
      (∀ k, k ≠ sU.next → sD.mem k = sU.mem k) ∧ sD.hmem = sU.hmem := by
    refine ⟨?_, ?_, ?_, ?_⟩ <;>
      first
        | (rw [show sD = (allocArr sU (fillFace Color.yellow)).2 from by rw [hD]]; rfl)
        | (intro k hk
           rw [show sD = (allocArr sU (fillFace Color.yellow)).2 from by rw [hD]]
           exact allocArr_mem sU _ k hk)
  have eR : sR.next = sD.next + 1 ∧ sR.hnext = sD.hnext ∧
      (∀ k, k ≠ sD.next → sR.mem k = sD.mem k) ∧ sR.hmem = sD.hmem := by
    refine ⟨?_, ?_, ?_, ?_⟩ <;>
      first
        | (rw [show sR = (allocArr sD (fillFace Color.red)).2 from by rw [hR]]; rfl)
        | (intro k hk
           rw [show sR = (allocArr sD (fillFace Color.red)).2 from by rw [hR]]
           exact allocArr_mem sD _ k hk)
  have eL : sL.next = sR.next + 1 ∧ sL.hnext = sR.hnext ∧
      (∀ k, k ≠ sR.next → sL.mem k = sR.mem k) ∧ sL.hmem = sR.hmem := by
    refine ⟨?_, ?_, ?_, ?_⟩ <;>
      first
        | (rw [show sL = (allocArr sR (fillFace Color.orange)).2 from by rw [hL]]; rfl)
        | (intro k hk
           rw [show sL = (allocArr sR (fillFace Color.orange)).2 from by rw [hL]]
           exact allocArr_mem sR _ k hk)
  have eF : sF.next = sL.next + 1 ∧ sF.hnext = sL.hnext ∧
      (∀ k, k ≠ sL.next → sF.mem k = sL.mem k) ∧ sF.hmem = sL.hmem := by
    refine ⟨?_, ?_, ?_, ?_⟩ <;>
      first
        | (rw [show sF = (allocArr sL (fillFace Color.blue)).2 from by rw [hF]]; rfl)
        | (intro k hk
           rw [show sF = (allocArr sL (fillFace Color.blue)).2 from by rw [hF]]
           exact allocArr_mem sL _ k hk)
  have eB : sB.next = sF.next + 1 ∧ sB.hnext = sF.hnext ∧
      (∀ k, k ≠ sF.next → sB.mem k = sF.mem k) ∧ sB.hmem = sF.hmem := by
    refine ⟨?_, ?_, ?_, ?_⟩ <;>
      first
        | (rw [show sB = (allocArr sF (fillFace Color.green)).2 from by rw [hB]]; rfl)
        | (intro k hk
           rw [show sB = (allocArr sF (fillFace Color.green)).2 from by rw [hB]]
           exact allocArr_mem sF _ k hk)
  have eH : sH.next = sB.next ∧ sH.hnext = sB.hnext + 1 ∧ sH.mem = sB.mem ∧
      (∀ k, k ≠ sB.hnext → sH.hmem k = sB.hmem k) ∧ nH = sB.hnext := by
    refine ⟨?_, ?_, ?_, ?_, ?_⟩ <;>
      first
        | (rw [show sH = (allocHist sB []).2 from by rw [hH]]; rfl)
        | (intro k hk
           rw [show sH = (allocHist sB []).2 from by rw [hH]]
           exact allocHist_hmem sB _ k hk)
        | (rw [show nH = (allocHist sB []).1 from by rw [hH]]; rfl)
  have hres : resetS s = (⟨fun f =>
      match f with
      | Face.U => nU
      | Face.D => nD
      | Face.R => nR
      | Face.L => nL
      | Face.F => nF
      | Face.B => nB, nH, true⟩, sH) := by
    simp only [resetS, hU, hD, hR, hL, hF, hB, hH]
  rw [hres]
  have hBn : sB.next = s.next + 6 := by
    rw [eB.1, eF.1, eL.1, eR.1, eD.1, eU.1]
  have hBh : sB.hnext = s.hnext := by
    rw [eB.2.1, eF.2.1, eL.2.1, eR.2.1, eD.2.1, eU.2.1]
  refine ⟨?_, ?_, ?_, ?_, ?_⟩
  · show nH = s.hnext
    rw [eH.2.2.2.2, hBh]
  · show sH.next = s.next + 6
    rw [eH.1, hBn]
  · show sH.hnext = s.hnext + 1
    rw [eH.2.1, hBh]
  · intro k hk
    show sH.mem k = s.mem k
    rw [eH.2.2.1]
    rw [eB.2.2.1 k (by rw [eF.1, eL.1, eR.1, eD.1, eU.1]; omega)]
    rw [eF.2.2.1 k (by rw [eL.1, eR.1, eD.1, eU.1]; omega)]
    rw [eL.2.2.1 k (by rw [eR.1, eD.1, eU.1]; omega)]
    rw [eR.2.2.1 k (by rw [eD.1, eU.1]; omega)]
    rw [eD.2.2.1 k (by rw [eU.1]; omega)]
    rw [eU.2.2.1 k (by omega)]
  · intro k hk
    show sH.hmem k = s.hmem k
    rw [eH.2.2.2.1 k (by rw [hBh]; omega)]
    rw [eB.2.2.2, eF.2.2.2, eL.2.2.2, eR.2.2.2, eD.2.2.2, eU.2.2.2]

theorem setStateS_spec (c : CubeRef) (s : Store) (snap : Faces) :
    (∀ f, s.next ≤ (setStateS c s snap).1.arr f ∧
      (setStateS c s snap).1.arr f < s.next + 6) ∧
    (setStateS c s snap).1.hist = c.hist ∧
    (setStateS c s snap).2.next = s.next + 6 ∧
    (setStateS c s snap).2.hnext = s.hnext ∧
    (∀ k, k < s.next → (setStateS c s snap).2.mem k = s.mem k) ∧
    (setStateS c s snap).2.hmem = s.hmem := by
  rcases hU : allocArr s snap.fU with ⟨nU, sU⟩
  rcases hD : allocArr sU snap.fD with ⟨nD, sD⟩
  rcases hR : allocArr sD snap.fR with ⟨nR, sR⟩
  rcases hL : allocArr sR snap.fL with ⟨nL, sL⟩
  rcases hF : allocArr sL snap.fF with ⟨nF, sF⟩
  rcases hB : allocArr sF snap.fB with ⟨nB, sB⟩
  have eU : nU = s.next ∧ sU.next = s.next + 1 ∧ sU.hnext = s.hnext ∧
      (∀ k, k ≠ s.next → sU.mem k = s.mem k) ∧ sU.hmem = s.hmem := by
    refine ⟨?_, ?_, ?_, ?_, ?_⟩ <;>
      first
        | (rw [show nU = (allocArr s snap.fU).1 from by rw [hU]]; rfl)
        | (rw [show sU = (allocArr s snap.fU).2 from by rw [hU]]; rfl)
        | (intro k hk
           rw [show sU = (allocArr s snap.fU).2 from by rw [hU]]
           exact allocArr_mem s _ k hk)
  have eD : nD = sU.next ∧ sD.next = sU.next + 1 ∧ sD.hnext = sU.hnext ∧
      (∀ k, k ≠ sU.next → sD.mem k = sU.mem k) ∧ sD.hmem = sU.hmem := by
    refine ⟨?_, ?_, ?_, ?_, ?_⟩ <;>
      first
        | (rw [show nD = (allocArr sU snap.fD).1 from by rw [hD]]; rfl)
        | (rw [show sD = (allocArr sU snap.fD).2 from by rw [hD]]; rfl)
        | (intro k hk
           rw [show sD = (allocArr sU snap.fD).2 from by rw [hD]]
           exact allocArr_mem sU _ k hk)
  have eR : nR = sD.next ∧ sR.next = sD.next + 1 ∧ sR.hnext = sD.hnext ∧
      (∀ k, k ≠ sD.next → sR.mem k = sD.mem k) ∧ sR.hmem = sD.hmem := by
    refine ⟨?_, ?_, ?_, ?_, ?_⟩ <;>
      first
        | (rw [show nR = (allocArr sD snap.fR).1 from by rw [hR]]; rfl)
        | (rw [show sR = (allocArr sD snap.fR).2 from by rw [hR]]; rfl)
        | (intro k hk
           rw [show sR = (allocArr sD snap.fR).2 from by rw [hR]]
           exact allocArr_mem sD _ k hk)
  have eL : nL = sR.next ∧ sL.next = sR.next + 1 ∧ sL.hnext = sR.hnext ∧
      (∀ k, k ≠ sR.next → sL.mem k = sR.mem k) ∧ sL.hmem = sR.hmem := by
    refine ⟨?_, ?_, ?_, ?_, ?_⟩ <;>
      first
        | (rw [show nL = (allocArr sR snap.fL).1 from by rw [hL]]; rfl)
        | (rw [show sL = (allocArr sR snap.fL).2 from by rw [hL]]; rfl)
        | (intro k hk
           rw [show sL = (allocArr sR snap.fL).2 from by rw [hL]]
           exact allocArr_mem sR _ k hk)
  have eF : nF = sL.next ∧ sF.next = sL.next + 1 ∧ sF.hnext = sL.hnext ∧
      (∀ k, k ≠ sL.next → sF.mem k = sL.mem k) ∧ sF.hmem = sL.hmem := by
    refine ⟨?_, ?_, ?_, ?_, ?_⟩ <;>
      first
        | (rw [show nF = (allocArr sL snap.fF).1 from by rw [hF]]; rfl)
        | (rw [show sF = (allocArr sL snap.fF).2 from by rw [hF]]; rfl)
        | (intro k hk
           rw [show sF = (allocArr sL snap.fF).2 from by rw [hF]]
           exact allocArr_mem sL _ k hk)
  have eB : nB = sF.next ∧ sB.next = sF.next + 1 ∧ sB.hnext = sF.hnext ∧
      (∀ k, k ≠ sF.next → sB.mem k = sF.mem k) ∧ sB.hmem = sF.hmem := by
    refine ⟨?_, ?_, ?_, ?_, ?_⟩ <;>
      first
        | (rw [show nB = (allocArr sF snap.fB).1 from by rw [hB]]; rfl)
        | (rw [show sB = (allocArr sF snap.fB).2 from by rw [hB]]; rfl)
        | (intro k hk
           rw [show sB = (allocArr sF snap.fB).2 from by rw [hB]]
           exact allocArr_mem sF _ k hk)
  have hset : setStateS c s snap = (⟨fun f =>
      match f with
      | Face.U => nU
      | Face.D => nD
      | Face.R => nR
      | Face.L => nL
      | Face.F => nF
      | Face.B => nB, c.hist, checkCompleted snap⟩, sB) := by
    simp only [setStateS, hU, hD, hR, hL, hF, hB]
  rw [hset]
  have h1 : nU = s.next := eU.1
  have h2 : nD = s.next + 1 := by rw [eD.1, eU.2.1]
  have h3 : nR = s.next + 2 := by rw [eR.1, eD.2.1, eU.2.1]
  have h4 : nL = s.next + 3 := by rw [eL.1, eR.2.1, eD.2.1, eU.2.1]
  have h5 : nF = s.next + 4 := by rw [eF.1, eL.2.1, eR.2.1, eD.2.1, eU.2.1]
  have h6 : nB = s.next + 5 := by rw [eB.1, eF.2.1, eL.2.1, eR.2.1, eD.2.1, eU.2.1]
  refine ⟨?_, rfl, ?_, ?_, ?_, ?_⟩
  · intro f
    cases f <;> simp only [h1, h2, h3, h4, h5, h6] <;> omega
  · show sB.next = s.next + 6
    rw [eB.2.1, eF.2.1, eL.2.1, eR.2.1, eD.2.1, eU.2.1]
  · show sB.hnext = s.hnext
    rw [eB.2.2.1, eF.2.2.1, eL.2.2.1, eR.2.2.1, eD.2.2.1, eU.2.2.1]
  · intro k hk
    show sB.mem k = s.mem k
    rw [eB.2.2.2.1 k (by rw [eF.2.1, eL.2.1, eR.2.1, eD.2.1, eU.2.1]; omega)]
    rw [eF.2.2.2.1 k (by rw [eL.2.1, eR.2.1, eD.2.1, eU.2.1]; omega)]
    rw [eL.2.2.2.1 k (by rw [eR.2.1, eD.2.1, eU.2.1]; omega)]
    rw [eR.2.2.2.1 k (by rw [eD.2.1, eU.2.1]; omega)]
    rw [eD.2.2.2.1 k (by rw [eU.2.1]; omega)]
    rw [eU.2.2.2.1 k (by omega)]
  · show sB.hmem = s.hmem
    rw [eB.2.2.2.2, eF.2.2.2.2, eL.2.2.2.2, eR.2.2.2.2, eD.2.2.2.2, eU.2.2.2.2]

theorem createWorkingStateS_spec (cube : CubeRef) (s : Store) :
    (∀ f, s.next + 6 ≤ (createWorkingStateS cube s).1.arr f) ∧
    (createWorkingStateS cube s).1.hist = s.hnext + 1 ∧
    (createWorkingStateS cube s).2.next = s.next + 12 ∧
    (createWorkingStateS cube s).2.hnext = s.hnext + 2 ∧
    (∀ k, k < s.next → (createWorkingStateS cube s).2.mem k = s.mem k) ∧
    (∀ k, k < s.hnext → (createWorkingStateS cube s).2.hmem k = s.hmem k) := by
  rcases h0 : resetS s with ⟨w0, sA⟩
  rcases h1 : setStateS w0 sA (getStateCopyS cube sA) with ⟨w1, sB⟩
  rcases h2 : allocHist sB (getMoveHistoryS cube sB) with ⟨nH, sC⟩
  have e0 := resetS_spec s
  rw [h0] at e0
  dsimp only at e0
  have e1 := setStateS_spec w0 sA (getStateCopyS cube sA)
  rw [h1] at e1
  have e2a : nH = sB.hnext := by
    rw [show nH = (allocHist sB (getMoveHistoryS cube sB)).1 from by rw [h2]]
    rfl
  have e2next : sC.next = sB.next := by
    rw [show sC = (allocHist sB (getMoveHistoryS cube sB)).2 from by rw [h2]]
    rfl
  have e2hnext : sC.hnext = sB.hnext + 1 := by
    rw [show sC = (allocHist sB (getMoveHistoryS cube sB)).2 from by rw [h2]]
    rfl
  have e2mem : sC.mem = sB.mem := by
    rw [show sC = (allocHist sB (getMoveHistoryS cube sB)).2 from by rw [h2]]
    rfl
  have e2hmem : ∀ k, k ≠ sB.hnext → sC.hmem k = sB.hmem k := by
    intro k hk
    rw [show sC = (allocHist sB (getMoveHistoryS cube sB)).2 from by rw [h2]]
    exact allocHist_hmem sB _ k hk
  have hcw : createWorkingStateS cube s = (⟨w1.arr, nH, w1.flag⟩, sC) := by
    simp only [createWorkingStateS, h0, h1, h2]
  rw [hcw]
  have hAnext : sA.next = s.next + 6 := e0.2.1
  have hAhnext : sA.hnext = s.hnext + 1 := e0.2.2.1
  have hBnext : sB.next = s.next + 12 := by
    rw [e1.2.2.1, hAnext]
  have hBhnext : sB.hnext = s.hnext + 1 := by
    rw [e1.2.2.2.1, hAhnext]
  refine ⟨?_, ?_, ?_, ?_, ?_, ?_⟩
  · intro f
    have := (e1.1 f).1
    rw [hAnext] at this
    exact this
  · show nH = s.hnext + 1
    rw [e2a, hBhnext]
  · show sC.next = s.next + 12
    rw [e2next, hBnext]
  · show sC.hnext = s.hnext + 2
    rw [e2hnext, hBhnext]
  · intro k hk
    show sC.mem k = s.mem k
    rw [e2mem]
    rw [e1.2.2.2.2.1 k (by omega : k < sA.next)]
    exact e0.2.2.2.1 k hk
  · intro k hk
    show sC.hmem k = s.hmem k
    rw [e2hmem k (by omega : k ≠ sB.hnext)]
    rw [e1.2.2.2.2.2]
    exact e0.2.2.2.2 k hk

/-- Claim C6: solve operates only on a private working copy: under a
well-formed caller (all its references allocated), the caller's six sticker
arrays and its history array hold the same values after solveS, and the
working copy returned by the run shares no array reference and no history
reference with the caller. -/
theorem C6_solver_isolation (cube : CubeRef) (s : Store) (r : Nat → Nat)
    (hwf : WFRef cube s) :
    (∀ g, ((solveS cube s r).2).mem (cube.arr g) = s.mem (cube.arr g)) ∧
    ((solveS cube s r).2).hmem cube.hist = s.hmem cube.hist ∧
    (∀ f g, ((solveS cube s r).1.2).arr f ≠ cube.arr g) ∧
    ((solveS cube s r).1.2).hist ≠ cube.hist := by
  obtain ⟨hwa, hwh⟩ := hwf
  rcases h0 : createWorkingStateS cube s with ⟨w, s0⟩
  have e0 := createWorkingStateS_spec cube s
  rw [h0] at e0
  dsimp only at e0
  rcases hq1 : stageLoopS (predS isWhiteCrossSolved) wcTemplate
    (fun a => uMoves.getD (r a % 3) "U") 20 0 w s0 with ⟨⟨w1, s1⟩, m1⟩
  have f1 := stageLoopS_frame (predS isWhiteCrossSolved) wcTemplate
    (fun a => uMoves.getD (r a % 3) "U") 20 0 w s0
  rw [hq1] at f1
  dsimp only at f1
  rcases hq2 : stageLoopS (predS areWhiteCornersSolved) cornersTemplate
    (fun _ => "U") 30 0 w1 s1 with ⟨⟨w2, s2⟩, m2⟩
  have f2 := stageLoopS_frame (predS areWhiteCornersSolved) cornersTemplate
    (fun _ => "U") 30 0 w1 s1
  rw [hq2] at f2
  dsimp only at f2
  rcases hq3 : stageLoopS (predS isSecondLayerSolved) secondTemplate
    (fun _ => "U") 25 0 w2 s2 with ⟨⟨w3, s3⟩, m3⟩
  have f3 := stageLoopS_frame (predS isSecondLayerSolved) secondTemplate
    (fun _ => "U") 25 0 w2 s2
  rw [hq3] at f3
  dsimp only at f3
  rcases hq4 : stageLoopS (predS isYellowCrossSolved) yellowCrossTemplate
    (fun _ => "U") 15 0 w3 s3 with ⟨⟨w4, s4⟩, m4⟩
  have f4 := stageLoopS_frame (predS isYellowCrossSolved) yellowCrossTemplate
    (fun _ => "U") 15 0 w3 s3
  rw [hq4] at f4
  dsimp only at f4
  rcases hq5 : stageLoopS (predS areYellowCornersOriented) suneTemplate
    (fun _ => "U") 20 0 w4 s4 with ⟨⟨w5, s5⟩, m5⟩
  have f5 := stageLoopS_frame (predS areYellowCornersOriented) suneTemplate
    (fun _ => "U") 20 0 w4 s4
  rw [hq5] at f5
  dsimp only at f5
  rcases hq6 : stageLoopS (predS areLastLayerCornersSolved) cornerPLLTemplate
    (fun _ => "U") 10 0 w5 s5 with ⟨⟨w6, s6⟩, m6⟩
  have f6 := stageLoopS_frame (predS areLastLayerCornersSolved) cornerPLLTemplate
    (fun _ => "U") 10 0 w5 s5
  rw [hq6] at f6
  dsimp only at f6
  rcases hq7 : stageLoopS (predS areLastLayerEdgesSolved) edgePLLTemplate
    (fun _ => "U") 10 0 w6 s6 with ⟨⟨w7, s7⟩, m7⟩
  have f7 := stageLoopS_frame (predS areLastLayerEdgesSolved) edgePLLTemplate
    (fun _ => "U") 10 0 w6 s6
  rw [hq7] at f7
  dsimp only at f7
  have hsol : solveS cube s r =
      ((optimizeSolution (m1 ++ m2 ++ m3 ++ m4 ++ m5 ++ m6 ++ m7), w7), s7) := by
    simp only [solveS, h0, hq1, hq2, hq3, hq4, hq5, hq6, hq7]
  rw [hsol]
  have harr7 : w7.arr = w.arr := by
    rw [f7.1, f6.1, f5.1, f4.1, f3.1, f2.1, f1.1]
  have hhist7 : w7.hist = w.hist := by
    rw [f7.2.1, f6.2.1, f5.2.1, f4.2.1, f3.2.1, f2.2.1, f1.2.1]
  have hwarr : ∀ f g, w.arr f ≠ cube.arr g := by
    intro f g
    have h1 := e0.1 f
    have h2 := hwa g
    omega
  have hwhist : w.hist ≠ cube.hist := by
    have h1 := e0.2.1
    omega
  refine ⟨?_, ?_, ?_, ?_⟩
  · intro g
    have hk1 : ∀ f, cube.arr g ≠ w1.arr f := by
      intro f
      rw [f1.1]
      exact fun hx => hwarr f g hx.symm
    have hk2 : ∀ f, cube.arr g ≠ w2.arr f := by
      intro f
      rw [f2.1, f1.1]
      exact fun hx => hwarr f g hx.symm
    have hk3 : ∀ f, cube.arr g ≠ w3.arr f := by
      intro f
      rw [f3.1, f2.1, f1.1]
      exact fun hx => hwarr f g hx.symm
    have hk4 : ∀ f, cube.arr g ≠ w4.arr f := by
      intro f
      rw [f4.1, f3.1, f2.1, f1.1]
      exact fun hx => hwarr f g hx.symm
    have hk5 : ∀ f, cube.arr g ≠ w5.arr f := by
      intro f
      rw [f5.1, f4.1, f3.1, f2.1, f1.1]
      exact fun hx => hwarr f g hx.symm
    have hk6 : ∀ f, cube.arr g ≠ w6.arr f := by
      intro f
      rw [f6.1, f5.1, f4.1, f3.1, f2.1, f1.1]
      exact fun hx => hwarr f g hx.symm
    have hk0 : ∀ f, cube.arr g ≠ w.arr f := by
      intro f
      exact fun hx => hwarr f g hx.symm
    show s7.mem (cube.arr g) = s.mem (cube.arr g)
    rw [f7.2.2.2.2.1 (cube.arr g) hk6]
    rw [f6.2.2.2.2.1 (cube.arr g) hk5]
    rw [f5.2.2.2.2.1 (cube.arr g) hk4]
    rw [f4.2.2.2.2.1 (cube.arr g) hk3]
    rw [f3.2.2.2.2.1 (cube.arr g) hk2]
    rw [f2.2.2.2.2.1 (cube.arr g) hk1]
    rw [f1.2.2.2.2.1 (cube.arr g) hk0]
    exact e0.2.2.2.2.1 (cube.arr g) (hwa g)
  · have hh1 : cube.hist ≠ w1.hist := by
      rw [f1.2.1]
      exact fun hx => hwhist hx.symm
    have hh2 : cube.hist ≠ w2.hist := by
      rw [f2.2.1, f1.2.1]
      exact fun hx => hwhist hx.symm
    have hh3 : cube.hist ≠ w3.hist := by
      rw [f3.2.1, f2.2.1, f1.2.1]
      exact fun hx => hwhist hx.symm
    have hh4 : cube.hist ≠ w4.hist := by
      rw [f4.2.1, f3.2.1, f2.2.1, f1.2.1]
      exact fun hx => hwhist hx.symm
    have hh5 : cube.hist ≠ w5.hist := by
      rw [f5.2.1, f4.2.1, f3.2.1, f2.2.1, f1.2.1]
      exact fun hx => hwhist hx.symm
    have hh6 : cube.hist ≠ w6.hist := by
      rw [f6.2.1, f5.2.1, f4.2.1, f3.2.1, f2.2.1, f1.2.1]
      exact fun hx => hwhist hx.symm
    have hh0 : cube.hist ≠ w.hist := fun hx => hwhist hx.symm
    show s7.hmem cube.hist = s.hmem cube.hist
    rw [f7.2.2.2.2.2 cube.hist hh6]
    rw [f6.2.2.2.2.2 cube.hist hh5]
    rw [f5.2.2.2.2.2 cube.hist hh4]
    rw [f4.2.2.2.2.2 cube.hist hh3]
    rw [f3.2.2.2.2.2 cube.hist hh2]
    rw [f2.2.2.2.2.2 cube.hist hh1]
    rw [f1.2.2.2.2.2 cube.hist hh0]
    exact e0.2.2.2.2.2 cube.hist hwh
  · intro f g
    show w7.arr f ≠ cube.arr g
    rw [harr7]
    exact hwarr f g
  · show w7.hist ≠ cube.hist
    rw [hhist7]
    exact hwhist

/-- Witness for C6: a caller freshly constructed on the empty heap is
well-formed, so solveS leaves its arrays and history untouched and the
working copy aliases none of them. -/
theorem C6_witness :
    WFRef (resetS emptyStore).1 (resetS emptyStore).2 ∧
    (∀ g, ((solveS (resetS emptyStore).1 (resetS emptyStore).2 (fun _ => 0)).2).mem
        ((resetS emptyStore).1.arr g) =
      ((resetS emptyStore).2).mem ((resetS emptyStore).1.arr g) ∧
    (∀ f g, ((solveS (resetS emptyStore).1 (resetS emptyStore).2 (fun _ => 0)).1.2).arr f ≠
        (resetS emptyStore).1.arr g)) := by
  have hwf : WFRef (resetS emptyStore).1 (resetS emptyStore).2 := by
    constructor
    · intro f
      cases f <;> decide
    · decide
  have h := C6_solver_isolation (resetS emptyStore).1 (resetS emptyStore).2 (fun _ => 0) hwf
  exact ⟨hwf, fun g => ⟨h.1 g, h.2.2.1⟩⟩
